import Mathlib

/-!
Verification development for the POS integration mapping-and-ingestion pipeline.

The JavaScript source is modelled by a shallow embedding:

* `Value` is the tagged representation of JavaScript values appearing in the
  pipeline (JSON trees, `null`, `undefined`, `NaN`, `Date` objects);
* plain JavaScript objects used as maps are modelled by `JsObj`, an
  insertion-ordered association list whose enumeration order follows the
  ECMAScript own-property ordering (integer-like keys ascending first, then
  the remaining keys in insertion order);
* functions that can raise a JavaScript exception are embedded in
  `Except Unit`; total functions are plain Lean functions;
* database effects in the inserter are modelled by explicit state passing
  over `DbState`, with per-record insert failures supplied by an oracle.

All definitions are executable.
-/

set_option autoImplicit false

/-- JavaScript values flowing through the pipeline.  `num` uses `Rat` for
JavaScript numbers (the pipeline performs no float-rounding-sensitive
arithmetic), `date` is a JS `Date` object carrying its epoch-milliseconds
(`none` models an Invalid Date). -/
inductive Value where
  | vnull
  | undefined
  | nan
  | num (q : Rat)
  | str (s : String)
  | bool (b : Bool)
  | date (ms : Option Rat)
  | arr (elems : List Value)
  | obj (fields : List (String × Value))
deriving Repr

namespace Value

/-- JavaScript truthiness: `null`, `undefined`, `NaN`, `0`, `""` and `false`
are falsy; arrays, objects and Date objects are always truthy. -/
def isFalsy : Value → Bool
  | .vnull => true
  | .undefined => true
  | .nan => true
  | .num q => q = 0
  | .str s => s = ""
  | .bool b => !b
  | .date _ => false
  | .arr _ => false
  | .obj _ => false

def isArr : Value → Bool
  | .arr _ => true
  | _ => false

/-- `value === null || value === undefined` (the guards dropping a resolved
field use the two strict comparisons; `value != null` loose equality excludes
exactly the same two values). -/
def isNullOrUndef : Value → Bool
  | .vnull => true
  | .undefined => true
  | _ => false

end Value

mutual

/-- Structural equality test on `Value` (decidable equality is derived from
it below; the automatic derive handler does not support this nested
inductive). -/
def beqValue : Value → Value → Bool
  | .vnull, .vnull => true
  | .undefined, .undefined => true
  | .nan, .nan => true
  | .num a, .num b => a = b
  | .str a, .str b => a = b
  | .bool a, .bool b => a = b
  | .date a, .date b => a = b
  | .arr a, .arr b => beqValueList a b
  | .obj a, .obj b => beqFieldList a b
  | _, _ => false

def beqValueList : List Value → List Value → Bool
  | [], [] => true
  | x :: xs, y :: ys => beqValue x y && beqValueList xs ys
  | _, _ => false

def beqFieldList : List (String × Value) → List (String × Value) → Bool
  | [], [] => true
  | (k1, v1) :: xs, (k2, v2) :: ys => k1 = k2 && beqValue v1 v2 && beqFieldList xs ys
  | _, _ => false

end

mutual

theorem beqValue_iff : ∀ a b : Value, beqValue a b = true ↔ a = b
  | .vnull, b => by cases b <;> simp [beqValue]
  | .undefined, b => by cases b <;> simp [beqValue]
  | .nan, b => by cases b <;> simp [beqValue]
  | .num a, b => by cases b <;> simp [beqValue]
  | .str a, b => by cases b <;> simp [beqValue]
  | .bool a, b => by cases b <;> simp [beqValue]
  | .date a, b => by cases b <;> simp [beqValue]
  | .arr a, b => by
      cases b <;> simp [beqValue]
      exact beqValueList_iff a _
  | .obj a, b => by
      cases b <;> simp [beqValue]
      exact beqFieldList_iff a _

theorem beqValueList_iff : ∀ a b : List Value, beqValueList a b = true ↔ a = b
  | [], b => by cases b <;> simp [beqValueList]
  | x :: xs, b => by
      cases b with
      | nil => simp [beqValueList]
      | cons y ys =>
        simp only [beqValueList, Bool.and_eq_true, List.cons.injEq]
        rw [beqValue_iff, beqValueList_iff]

theorem beqFieldList_iff :
    ∀ a b : List (String × Value), beqFieldList a b = true ↔ a = b
  | [], b => by cases b <;> simp [beqFieldList]
  | (k1, v1) :: xs, b => by
      cases b with
      | nil => simp [beqFieldList]
      | cons y ys =>
        obtain ⟨k2, v2⟩ := y
        simp only [beqFieldList, Bool.and_eq_true, List.cons.injEq, Prod.mk.injEq,
          decide_eq_true_eq]
        rw [beqValue_iff, beqFieldList_iff]

end

instance : DecidableEq Value := fun a b =>
  decidable_of_iff (beqValue a b = true) (beqValue_iff a b)

instance {ε α : Type} [DecidableEq ε] [DecidableEq α] : DecidableEq (Except ε α) :=
  fun x y =>
    match x, y with
    | .ok a, .ok b =>
      if h : a = b then .isTrue (by rw [h])
      else .isFalse (fun c => h (by injection c))
    | .error a, .error b =>
      if h : a = b then .isTrue (by rw [h])
      else .isFalse (fun c => h (by injection c))
    | .ok _, .error _ => .isFalse (fun c => Except.noConfusion c)
    | .error _, .ok _ => .isFalse (fun c => Except.noConfusion c)

/-- Decimal rendering of the fractional part of a nonnegative rational, at
most `fuel` digits (JavaScript prints at most 17 significant digits; the
rationals appearing here come from decimal literals, so the expansion
terminates well before the fuel runs out). -/
def fracDigits : Nat → Rat → String
  | 0, _ => ""
  | fuel + 1, q =>
    if q = 0 then ""
    else
      let q10 := q * 10
      toString q10.floor ++ fracDigits fuel (q10 - (q10.floor : Rat))

/-- Rendering of a JavaScript number, as produced by `String(n)`. -/
def ratToJsString (q : Rat) : String :=
  let render : Rat → String := fun p =>
    if p.den = 1 then toString p.num
    else toString p.floor ++ "." ++ fracDigits 20 (p - (p.floor : Rat))
  if q < 0 then "-" ++ render (-q) else render q

/-- Comma-joined rendering of a list of strings, as
`Array.prototype.toString` produces. -/
def joinComma : List String → String
  | [] => ""
  | [s] => s
  | s :: rest => s ++ "," ++ joinComma rest

mutual

/-- JavaScript `String(value)` coercion for the values the pipeline meets.
Arrays join their elements with commas; objects print as
"[object Object]".  Date rendering is simplified (never consulted by the
claims). -/
def jsToString : Value → String
  | .vnull => "null"
  | .undefined => "undefined"
  | .nan => "NaN"
  | .num q => ratToJsString q
  | .str s => s
  | .bool b => if b then "true" else "false"
  | .date none => "Invalid Date"
  | .date (some ms) => "Date@" ++ ratToJsString ms
  | .arr l => joinComma (jsToStringList l)
  | .obj _ => "[object Object]"

def jsToStringList : List Value → List String
  | [] => []
  | x :: xs => jsToString x :: jsToStringList xs

end

/-- Splitting a character list at every occurrence of the separator, as
JavaScript `String.prototype.split` with a one-character separator does
(an empty string yields one empty piece). -/
def splitCharsOn (sep : Char) : List Char → List Char → List (List Char)
  | acc, [] => [acc.reverse]
  | acc, c :: rest =>
    if c = sep then acc.reverse :: splitCharsOn sep [] rest
    else splitCharsOn sep (c :: acc) rest

/-- `s.split(sep)` for a one-character separator. -/
def strSplitOnChar (sep : Char) (s : String) : List String :=
  (splitCharsOn sep [] s.data).map String.mk

/-- `path.split('.')`. -/
def strSplitOnDot (s : String) : List String :=
  strSplitOnChar '.' s

/-- `part.endsWith('[*]')`. -/
def endsWithStar (s : String) : Bool :=
  match s.data.reverse with
  | ']' :: '*' :: '[' :: _ => true
  | _ => false

/-- Numeric value of a digit string (the callers guard that every character
is a digit). -/
def charsToNat : List Char → Nat → Nat
  | [], acc => acc
  | c :: rest, acc => charsToNat rest (acc * 10 + (c.toNat - 48))

def strToIndexNat (s : String) : Nat :=
  charsToNat s.data 0

/-- Whether a string is a canonical ECMAScript array index: the canonical
decimal form of an integer in `[0, 2^32 - 2]`.  Such property keys are
enumerated in ascending numeric order before all other keys. -/
def isArrayIndexKey (s : String) : Bool :=
  s ≠ "" && s.data.all Char.isDigit &&
    (s = "0" || s.data.head? ≠ some '0') &&
    strToIndexNat s < 4294967295

/-- A JavaScript object used as a map: an association list in property
insertion order, with no duplicate keys (assignment to an existing key
replaces its value in place). -/
abbrev JsObj (α : Type) := List (String × α)

namespace JsObj

variable {α : Type}

/-- `o[k]` read: the value at key `k`, or `none` (JS `undefined`). -/
def get (o : JsObj α) (k : String) : Option α :=
  match o with
  | [] => none
  | (k2, v) :: rest => if k2 = k then some v else get rest k

/-- `o[k] = v` assignment: replaces in place when the key exists, otherwise
appends at the end (the new key enumerates last among non-index keys). -/
def set (o : JsObj α) (k : String) (v : α) : JsObj α :=
  match o with
  | [] => [(k, v)]
  | (k2, w) :: rest => if k2 = k then (k2, v) :: rest else (k2, w) :: set rest k v

/-- Insertion sort of entries by the numeric value of their keys, used for
the integer-like segment of the enumeration order. -/
def insertByNat (e : String × α) : JsObj α → JsObj α
  | [] => [e]
  | f :: rest =>
    if strToIndexNat e.1 ≤ strToIndexNat f.1 then e :: f :: rest
    else f :: insertByNat e rest

def sortByNat : JsObj α → JsObj α
  | [] => []
  | e :: rest => insertByNat e (sortByNat rest)

/-- ECMAScript own-property enumeration order (`Object.keys`/`Object.values`):
canonical array-index keys in ascending numeric order first, then the
remaining keys in insertion order. -/
def enumEntries (o : JsObj α) : JsObj α :=
  sortByNat (o.filter (fun e => isArrayIndexKey e.1)) ++
    o.filter (fun e => !isArrayIndexKey e.1)

def enumKeys (o : JsObj α) : List String :=
  (enumEntries o).map Prod.fst

def enumValues (o : JsObj α) : List α :=
  (enumEntries o).map Prod.snd

end JsObj

/-- Property keys of a `Value.obj`, in insertion order. -/
def Value.objKeys : Value → List String
  | .obj fields => fields.map Prod.fst
  | _ => []

/-- JavaScript property read `v[k]` for the shapes the resolver meets:
object key lookup, array element at a canonical index; every other read
yields `undefined` (primitives have no own properties in this model). -/
def jsIndex (v : Value) (k : String) : Value :=
  match v with
  | .obj fields => (JsObj.get fields k).getD .undefined
  | .arr l =>
    if isArrayIndexKey k then ((l.get? (strToIndexNat k)).getD .undefined) else .undefined
  | _ => .undefined

/-- The JavaScript `k in v` operator.  On objects it tests key membership and
on arrays index membership; applied to a primitive (number, string, boolean,
`NaN`) it throws a `TypeError`, which is the single error source of the
path resolver.  (Array interface properties such as `length` are outside
the model: array membership covers element indices only.) -/
def jsInOp (k : String) (v : Value) : Except Unit Bool :=
  match v with
  | .obj fields => .ok ((JsObj.get fields k).isSome)
  | .arr l => .ok (isArrayIndexKey k && strToIndexNat k < l.length)
  | .date _ => .ok false
  | _ => .error ()

/-- `part.replace('[*]', '')`: removes the first occurrence of the wildcard
marker from a path segment. -/
def removeFirstStar : List Char → List Char
  | [] => []
  | '[' :: '*' :: ']' :: rest => rest
  | c :: rest => c :: removeFirstStar rest

def segmentKey (part : String) : String :=
  String.mk (removeFirstStar part.data)

namespace FieldMapper

/-- One element of the `flatMap` fan-out of the walker: resolve every array
element with the walker for the remaining path and concatenate, propagating
the first exception (as `Array.prototype.flatMap` does). -/
def walkAll (ih : Value → Except Unit (List Value)) :
    List Value → Except Unit (List Value)
  | [] => .ok []
  | x :: xs => do
    let r ← ih x
    let rs ← walkAll ih xs
    .ok (r ++ rs)

/-- End of path: a `null` or `undefined` current value yields the empty
result (this check precedes the end-of-path check in the source, so a
literal `null` leaf produces no result), otherwise the current value is the
single result. -/
def walkBase (v : Value) : Except Unit (List Value) :=
  match v with
  | .vnull => .ok []
  | .undefined => .ok []
  | v => .ok [v]

/-- One path segment of the walker, with `ih` resolving the remaining path:
a wildcard segment fans out over the array (or yields the empty result on a
non-array), a plain segment is guarded by the JS `in` operator, whose
`TypeError` on primitives is the walker's only exception. -/
def walkStep (ih : Value → Except Unit (List Value)) (part : String)
    (v : Value) : Except Unit (List Value) :=
  match v with
  | .vnull => .ok []
  | .undefined => .ok []
  | v =>
    if endsWithStar part then
      let key := segmentKey part
      let arrv := if key = "" then v else jsIndex v key
      match arrv with
      | .arr l => walkAll ih l
      | _ => .ok []
    else
      match jsInOp part v with
      | .error e => .error e
      | .ok false => .ok []
      | .ok true => ih (jsIndex v part)

/-- The recursive walker of `FieldMapper.extractByJsonPath`: segment by
segment (`walkStep`), finishing with `walkBase`.  Embedded in `Except Unit`
because the JS original can throw (see `jsInOp`). -/
def walk (parts : List String) : Value → Except Unit (List Value) :=
  parts.foldr (fun part ih => walkStep ih part) walkBase

theorem walk_nil : walk [] = walkBase := rfl

theorem walk_cons (part : String) (rest : List String) :
    walk (part :: rest) = walkStep (walk rest) part := rfl

/-- Whether resolving `l` under `ih`-safety meets a primitive at a plain
segment (see `walkMeetsScalar`). -/
def meetsAll (ih : Value → Bool) : List Value → Bool
  | [] => false
  | x :: xs => ih x || meetsAll ih xs

/-- One segment of the `TypeError` mirror of `walkStep`. -/
def meetsStep (ih : Value → Bool) (part : String) (v : Value) : Bool :=
  match v with
  | .vnull => false
  | .undefined => false
  | v =>
    if endsWithStar part then
      let key := segmentKey part
      let arrv := if key = "" then v else jsIndex v key
      match arrv with
      | .arr l => meetsAll ih l
      | _ => false
    else
      match jsInOp part v with
      | .error _ => true
      | .ok false => false
      | .ok true => ih (jsIndex v part)

/-- Mirror of `walk` recording whether the walk applies a plain
(non-wildcard) segment to a primitive value — exactly the situation in which
the JS original throws a `TypeError`. -/
def walkMeetsScalar (parts : List String) : Value → Bool :=
  parts.foldr (fun part ih => meetsStep ih part) (fun _ => false)

theorem meets_nil (v : Value) : walkMeetsScalar [] v = false := rfl

theorem meets_cons (part : String) (rest : List String) :
    walkMeetsScalar (part :: rest) = meetsStep (walkMeetsScalar rest) part := rfl

theorem walkAll_isOk_iff (ih : Value → Except Unit (List Value))
    (mih : Value → Bool) (h : ∀ v, (ih v).isOk = true ↔ mih v = false) :
    ∀ l, (walkAll ih l).isOk = true ↔ meetsAll mih l = false := by
  intro l
  induction l with
  | nil => simp [walkAll, meetsAll, Except.isOk, Except.toBool]
  | cons x xs IH =>
    simp only [walkAll, meetsAll, bind, Except.bind, Bool.or_eq_false_iff]
    cases hx : ih x with
    | error e =>
      simp only [Except.isOk, Except.toBool]
      constructor
      · intro hfalse; cases hfalse
      · rintro ⟨h1, -⟩
        have := (h x).mpr h1
        rw [hx] at this
        cases this
    | ok r =>
      have hmx : mih x = false := (h x).mp (by rw [hx]; rfl)
      cases hw : walkAll ih xs with
      | error e =>
        simp only [Except.isOk, Except.toBool]
        constructor
        · intro hfalse; cases hfalse
        · rintro ⟨-, h2⟩
          have := IH.mpr h2
          rw [hw] at this
          cases this
      | ok rs =>
        have := IH.mp (by rw [hw]; rfl)
        simp [Except.isOk, Except.toBool, hmx, this]

theorem walk_isOk_iff (parts : List String) :
    ∀ v : Value, (walk parts v).isOk = true ↔ walkMeetsScalar parts v = false := by
  induction parts with
  | nil =>
    intro v
    cases v <;> simp [walk_nil, walkBase, meets_nil, Except.isOk, Except.toBool, walkMeetsScalar]
  | cons p rest IH =>
    intro v
    rw [walk_cons, meets_cons]
    cases v with
    | vnull => simp [walkStep, meetsStep, Except.isOk, Except.toBool]
    | undefined => simp [walkStep, meetsStep, Except.isOk, Except.toBool]
    | nan =>
      simp only [walkStep, meetsStep]
      split
      · split <;> first
          | exact walkAll_isOk_iff _ _ IH _
          | simp [Except.isOk, Except.toBool]
      · simp [jsInOp, Except.isOk, Except.toBool]
    | num q =>
      simp only [walkStep, meetsStep]
      split
      · split <;> first
          | exact walkAll_isOk_iff _ _ IH _
          | simp [Except.isOk, Except.toBool]
      · simp [jsInOp, Except.isOk, Except.toBool]
    | str s =>
      simp only [walkStep, meetsStep]
      split
      · split <;> first
          | exact walkAll_isOk_iff _ _ IH _
          | simp [Except.isOk, Except.toBool]
      · simp [jsInOp, Except.isOk, Except.toBool]
    | bool b =>
      simp only [walkStep, meetsStep]
      split
      · split <;> first
          | exact walkAll_isOk_iff _ _ IH _
          | simp [Except.isOk, Except.toBool]
      · simp [jsInOp, Except.isOk, Except.toBool]
    | date ms =>
      simp only [walkStep, meetsStep]
      split
      · split <;> first
          | exact walkAll_isOk_iff _ _ IH _
          | simp [Except.isOk, Except.toBool]
      · simp [jsInOp, Except.isOk, Except.toBool]
    | arr l =>
      simp only [walkStep, meetsStep]
      split
      · split <;> first
          | exact walkAll_isOk_iff _ _ IH _
          | simp [Except.isOk, Except.toBool]
      · simp only [jsInOp]
        split
        · simp_all
        · simp [Except.isOk, Except.toBool]
        · have h2 := IH (jsIndex (Value.arr l) p)
          cases hw : walk rest (jsIndex (Value.arr l) p) with
          | ok r => exact hw ▸ h2
          | error e => exact hw ▸ h2
    | obj fields =>
      simp only [walkStep, meetsStep]
      split
      · split <;> first
          | exact walkAll_isOk_iff _ _ IH _
          | simp [Except.isOk, Except.toBool]
      · simp only [jsInOp]
        split
        · simp_all
        · simp [Except.isOk, Except.toBool]
        · have h2 := IH (jsIndex (Value.obj fields) p)
          cases hw : walk rest (jsIndex (Value.obj fields) p) with
          | ok r => exact hw ▸ h2
          | error e => exact hw ▸ h2

/-- A missing plain key on an object yields the empty result, not an
error. -/
theorem walk_missingKey (fields : List (String × Value)) (k : String)
    (ps : List String) (hstar : endsWithStar k = false)
    (hmiss : JsObj.get fields k = none) :
    walk (k :: ps) (.obj fields) = .ok [] := by
  rw [walk_cons]
  simp [walkStep, hstar, jsInOp, hmiss]

/-- The array targeted by a wildcard segment: the current value itself when
the segment is a bare wildcard, otherwise the property it names. -/
def wildTarget (part : String) (v : Value) : Value :=
  let key := segmentKey part
  if key = "" then v else jsIndex v key

/-- A wildcard segment whose target is not an array yields the empty
result, not an error. -/
theorem walk_wildcardNonArray (part : String) (ps : List String) (v : Value)
    (hstar : endsWithStar part = true)
    (hna : (wildTarget part v).isArr = false) :
    walk (part :: ps) v = .ok [] := by
  rw [walk_cons]
  cases v <;> simp_all [walkStep, wildTarget, Value.isArr] <;>
    (first
      | rfl
      | (split <;> simp_all [Value.isArr]))

/-- `FieldMapper.extractByJsonPath(obj, path)`: splits the dotted path,
walks it, and post-processes the collected results — empty resolution
returns JS `null`, a single result is returned unwrapped, several results
come back as an array.  A falsy tree or an empty path short-circuits
to `null`. -/
def extractByJsonPath (obj : Value) (path : String) : Except Unit Value :=
  if obj.isFalsy || path = "" then .ok .vnull
  else
    match walk (strSplitOnDot path) obj with
    | .error e => .error e
    | .ok [] => .ok .vnull
    | .ok [v] => .ok v
    | .ok l => .ok (.arr l)

theorem extract_ofWalkEmpty (obj : Value) (path : String)
    (h : walk (strSplitOnDot path) obj = .ok []) :
    extractByJsonPath obj path = .ok .vnull := by
  unfold extractByJsonPath
  split
  · rfl
  · rw [h]

theorem extract_ofWalkSingle (obj : Value) (path : String) (v : Value)
    (hobj : obj.isFalsy = false) (hpath : path ≠ "")
    (h : walk (strSplitOnDot path) obj = .ok [v]) :
    extractByJsonPath obj path = .ok v := by
  unfold extractByJsonPath
  split
  · simp_all
  · rw [h]

theorem extract_ofWalkMulti (obj : Value) (path : String) (a b : Value)
    (l : List Value) (hobj : obj.isFalsy = false) (hpath : path ≠ "")
    (h : walk (strSplitOnDot path) obj = .ok (a :: b :: l)) :
    extractByJsonPath obj path = .ok (.arr (a :: b :: l)) := by
  unfold extractByJsonPath
  split
  · simp_all
  · rw [h]

end FieldMapper

/-! ## JavaScript number, string and date primitives used by the
transformation rules -/

/-- Substring test: `charsHasPrefix pat s` holds when `pat` is a prefix
of `s`. -/
def charsHasPrefix : List Char → List Char → Bool
  | [], _ => true
  | _ :: _, [] => false
  | p :: ps, c :: cs => p = c && charsHasPrefix ps cs

def charsContains (pat : List Char) : List Char → Bool
  | [] => pat.isEmpty
  | c :: rest => charsHasPrefix pat (c :: rest) || charsContains pat rest

/-- `s.includes(pat)` (used by the rule dispatcher of the transformation
engine). -/
def strIncludes (s pat : String) : Bool :=
  charsContains pat.data s.data

def strMapUpper (s : String) : String :=
  String.mk (s.data.map Char.toUpper)

def strMapLower (s : String) : String :=
  String.mk (s.data.map Char.toLower)

def twoDigitVal (a b : Char) : Nat :=
  (a.toNat - 48) * 10 + (b.toNat - 48)

/-- Leading decimal number of a string: optional sign, digits, optional
fractional digits — the fragment of the `parseFloat` grammar the vendors
use (exponents and hexadecimal are outside the model). -/
def parseLeadingFloat (cs0 : List Char) : Option Rat :=
  let cs1 := cs0.dropWhile (fun c => c = ' ')
  let sign : Rat := if cs1.head? = some '-' then -1 else 1
  let cs2 := if cs1.head? = some '-' || cs1.head? = some '+' then cs1.tail else cs1
  let ds1 := cs2.takeWhile Char.isDigit
  let rest := cs2.dropWhile Char.isDigit
  let ds2 := if rest.head? = some '.' then rest.tail.takeWhile Char.isDigit else []
  if ds1.isEmpty && ds2.isEmpty then none
  else
    some (sign * ((charsToNat ds1 0 : Rat) +
      (charsToNat ds2 0 : Rat) / ((10 : Rat) ^ ds2.length)))

/-- Leading integer of a string (the `parseInt` grammar without radix
prefixes). -/
def parseLeadingInt (cs0 : List Char) : Option Int :=
  let cs1 := cs0.dropWhile (fun c => c = ' ')
  let neg := cs1.head? = some '-'
  let cs2 := if cs1.head? = some '-' || cs1.head? = some '+' then cs1.tail else cs1
  let ds := cs2.takeWhile Char.isDigit
  if ds.isEmpty then none
  else some (if neg then -(charsToNat ds 0 : Int) else (charsToNat ds 0 : Int))

/-- `parseFloat(value)`: the string coercion is parsed; no parse yields
`NaN`. -/
def jsParseFloat (v : Value) : Value :=
  match parseLeadingFloat (jsToString v).data with
  | none => .nan
  | some q => .num q

/-- `parseInt(value)`. -/
def jsParseInt (v : Value) : Value :=
  match parseLeadingInt (jsToString v).data with
  | none => .nan
  | some n => .num (n : Rat)

/-- `Number(value)` for the value shapes the epoch rules meet (`none`
models `NaN`; array and object coercions are outside the model). -/
def jsToNumber (v : Value) : Option Rat :=
  match v with
  | .num q => some q
  | .str s => if s.data.dropWhile (fun c => c = ' ') = [] then some 0
      else parseLeadingFloat s.data
  | .bool b => some (if b then 1 else 0)
  | .vnull => some 0
  | .date o => o
  | _ => none

/-- Civil date from a count of days since 1970-01-01 (proleptic Gregorian
calendar, standard era-based algorithm). -/
def civilFromDays (z0 : Int) : Int × Int × Int :=
  let z := z0 + 719468
  let era := (if z ≥ 0 then z else z - 146096) / 146097
  let doe := z - era * 146097
  let yoe := (doe - doe / 1460 + doe / 36524 - doe / 146096) / 365
  let y := yoe + era * 400
  let doy := doe - (365 * yoe + yoe / 4 - yoe / 100)
  let mp := (5 * doy + 2) / 153
  let d := doy - (153 * mp + 2) / 5 + 1
  let m := mp + (if mp < 10 then 3 else -9)
  (y + (if m ≤ 2 then 1 else 0), m, d)

/-- Days since 1970-01-01 of a civil date. -/
def daysFromCivil (y m d : Int) : Int :=
  let y2 := y - (if m ≤ 2 then 1 else 0)
  let era := (if y2 ≥ 0 then y2 else y2 - 399) / 400
  let yoe := y2 - era * 400
  let mp := m + (if m > 2 then -3 else 9)
  let doy := (153 * mp + 2) / 5 + d - 1
  let doe := yoe * 365 + yoe / 4 - yoe / 100 + doy
  era * 146097 + doe - 719468

def isLeapYear (y : Int) : Bool :=
  (y % 4 = 0 && y % 100 ≠ 0) || y % 400 = 0

def daysInMonth (y m : Int) : Int :=
  if m = 2 then (if isLeapYear y then 29 else 28)
  else if m = 4 || m = 6 || m = 9 || m = 11 then 30
  else 31

def pad2 (n : Int) : String :=
  if n < 10 then "0" ++ toString n else toString n

def pad3 (n : Int) : String :=
  if n < 10 then "00" ++ toString n
  else if n < 100 then "0" ++ toString n
  else toString n

/-- `dayjs.unix(secs).tz('Asia/Kolkata').format('YYYY-MM-DD')`: the civil
date of the instant shifted to IST (+05:30, no daylight saving). -/
def istDateString (secs : Rat) : String :=
  let total : Int := (secs + 19800).floor
  let days : Int := Int.fdiv total 86400
  let c := civilFromDays days
  toString c.1 ++ "-" ++ pad2 c.2.1 ++ "-" ++ pad2 c.2.2

/-- The `epochToDate` rule: epoch seconds to an IST date string; a `NaN`
input produces dayjs' "Invalid Date" rendering. -/
def jsEpochToDate (v : Value) : Value :=
  match jsToNumber v with
  | none => .str "Invalid Date"
  | some q => .str (istDateString q)

/-- The `epochToTimestamp` rule: epoch seconds to a JS `Date` object. -/
def jsEpochToTimestamp (v : Value) : Value :=
  match jsToNumber v with
  | none => .date none
  | some q => .date (some (q * 1000))

/-- The exact shape `\d{4}-\d{2}-\d{2}`, yielding its calendar-checked
fields. -/
def parseIsoDateChars : List Char → Option (Int × Int × Int)
  | [y1, y2, y3, y4, '-', m1, m2, '-', d1, d2] =>
    if (([y1, y2, y3, y4, m1, m2, d1, d2]).all Char.isDigit) then
      let y : Int := (charsToNat [y1, y2, y3, y4] 0 : Nat)
      let m : Int := (twoDigitVal m1 m2 : Nat)
      let d : Int := (twoDigitVal d1 d2 : Nat)
      if 1 ≤ m && m ≤ 12 && 1 ≤ d && d ≤ daysInMonth y m then some (y, m, d)
      else none
    else none
  | _ => none

/-- `new Date(value)` reduced to its epoch milliseconds; `none` models an
Invalid Date.  String parsing recognizes the ISO date shape the pipeline
produces (the full JS date grammar is outside the model). -/
def jsNewDateMs (v : Value) : Option Rat :=
  match v with
  | .num q => some q
  | .date o => o
  | .bool b => some (if b then 1 else 0)
  | .vnull => some 0
  | .str s =>
    match parseIsoDateChars s.data with
    | some (y, m, d) => some ((daysFromCivil y m d * 86400000 : Int) : Rat)
    | none => none
  | _ => none

def msToIsoString (ms : Rat) : String :=
  let msInt := ms.floor
  let days := Int.fdiv msInt 86400000
  let rem := msInt - days * 86400000
  let c := civilFromDays days
  let secOfDay := rem / 1000
  let msec := rem % 1000
  let hh := secOfDay / 3600
  let mi := secOfDay % 3600 / 60
  let ss := secOfDay % 60
  toString c.1 ++ "-" ++ pad2 c.2.1 ++ "-" ++ pad2 c.2.2 ++ "T" ++
    pad2 hh ++ ":" ++ pad2 mi ++ ":" ++ pad2 ss ++ "." ++ pad3 msec ++ "Z"

/-- `new Date(value).toISOString()`: throws a RangeError on an Invalid
Date — the transformation dispatcher catches it. -/
def jsToISOStringTry (v : Value) : Except String Value :=
  match jsNewDateMs v with
  | none => .error "RangeError: Invalid time value"
  | some ms => .ok (.str (msToIsoString ms))

namespace FieldMapper

/-- `FieldMapper.parseApiDateTime`: strict dayjs parse of
`DD/MM/YYYY hh:mm:ss A`, reformatted as `YYYY-MM-DD HH:mm:ss`; a falsy or
non-matching input yields null (the source also emits a warn log, dropped
here).  The IST conversion is the identity because the integration fixes
the process clock to Asia/Kolkata. -/
def parseApiDateTime (v : Value) : Value :=
  if v.isFalsy then .vnull
  else
    match v with
    | .str s =>
      match s.data with
      | [d1, d2, '/', m1, m2, '/', y1, y2, y3, y4, ' ',
         h1, h2, ':', i1, i2, ':', s1, s2, ' ', ap, 'M'] =>
        if ([d1, d2, m1, m2, y1, y2, y3, y4, h1, h2, i1, i2, s1, s2]).all
            Char.isDigit && (ap = 'A' || ap = 'P') then
          let day : Int := (twoDigitVal d1 d2 : Nat)
          let mon : Int := (twoDigitVal m1 m2 : Nat)
          let year : Int := (charsToNat [y1, y2, y3, y4] 0 : Nat)
          let h12 : Int := (twoDigitVal h1 h2 : Nat)
          let mins : Int := (twoDigitVal i1 i2 : Nat)
          let secs : Int := (twoDigitVal s1 s2 : Nat)
          if 1 ≤ mon && mon ≤ 12 && 1 ≤ day && day ≤ daysInMonth year mon &&
              1 ≤ h12 && h12 ≤ 12 && mins ≤ 59 && secs ≤ 59 then
            let h24 : Int :=
              if ap = 'P' && h12 ≠ 12 then h12 + 12
              else if ap = 'A' && h12 = 12 then 0
              else h12
            .str (toString year ++ "-" ++ pad2 mon ++ "-" ++ pad2 day ++ " " ++
              pad2 h24 ++ ":" ++ pad2 mins ++ ":" ++ pad2 secs)
          else .vnull
        else .vnull
      | _ => .vnull
    | _ => .vnull

/-- The try-block of `FieldMapper.applyTransformation`: the rule dispatch by
substring, in source order.  Only `toISOString` can actually throw (the
other branches absorb bad input into `NaN`/Invalid values), so the
embedding localizes the exception there. -/
def applyTransformationTry (v : Value) (rule : String) : Except String Value :=
  if strIncludes rule "epochToDate" then .ok (jsEpochToDate v)
  else if strIncludes rule "epochToTimestamp" then .ok (jsEpochToTimestamp v)
  else if strIncludes rule "toUpperCase" then .ok (.str (strMapUpper (jsToString v)))
  else if strIncludes rule "toLowerCase" then .ok (.str (strMapLower (jsToString v)))
  else if strIncludes rule "parseFloat" then .ok (jsParseFloat v)
  else if strIncludes rule "parseInt" then .ok (jsParseInt v)
  else if strIncludes rule "toISOString" then jsToISOStringTry v
  else if strIncludes rule "parseDateTime" then .ok (parseApiDateTime v)
  else .ok v

/-- `FieldMapper.applyTransformation`: the try body above inside the
catch-all — a thrown exception is swallowed, the original value is returned
and a warn diagnostic is emitted (second component). -/
def applyTransformation (v : Value) (rule : String) : Value × List String :=
  match applyTransformationTry v rule with
  | .ok w => (w, [])
  | .error msg => (v, ["Transformation failed: " ++ msg])

/-- One declarative field-mapping rule (a `pos_vendor_field_mapping` row);
`none` models a NULL column. -/
structure FieldMapping where
  pvfm_tablename : String := ""
  pvfm_source_field : String := ""
  pvfm_target_field : Option String := none
  pvfm_json_path : Option String := none
  pvfm_transform_rule : Option String := none
  pvfm_row_root_json_path : Option String := none
deriving DecidableEq, Repr

/-- JavaScript truthiness of an optional string column. -/
def optTruthy : Option String → Bool
  | none => false
  | some s => s ≠ ""

/-- The date property key of a compound `date|time` mapping (first piece of
the split path). -/
def dateKeyOf (m : FieldMapping) : String :=
  ((strSplitOnChar '|' (m.pvfm_json_path.getD "null")).get? 0).getD "undefined"

/-- The time property key of a compound `date|time` mapping (second piece;
a missing piece reads property "undefined", as JS does). -/
def timeKeyOf (m : FieldMapping) : String :=
  ((strSplitOnChar '|' (m.pvfm_json_path.getD "null")).get? 1).getD "undefined"

/-- The date half of `FieldMapper.buildTimestamp`: `\d{8}` is sliced as
YYYYMMDD, the exact shape `\d{4}-\d{2}-\d{2}` passes through, anything else
is rejected. -/
def datePartOf (s : String) : Option String :=
  let cs := s.data
  if cs.length = 8 && cs.all Char.isDigit then
    some (String.mk (cs.take 4) ++ "-" ++ String.mk ((cs.drop 4).take 2) ++
      "-" ++ String.mk (cs.drop 6))
  else
    match cs with
    | [y1, y2, y3, y4, '-', m1, m2, '-', d1, d2] =>
      if ([y1, y2, y3, y4, m1, m2, d1, d2]).all Char.isDigit then some s
      else none
    | _ => none

/-- The time half of `FieldMapper.buildTimestamp`: `\d{6}` is sliced as
HHMMSS; a string starting with `\d{2}:\d{2}:\d{2}` keeps its first eight
characters (dropping fractional seconds); anything else is rejected. -/
def timePartOf (s : String) : Option String :=
  let cs := s.data
  if cs.length = 6 && cs.all Char.isDigit then
    some (String.mk (cs.take 2) ++ ":" ++ String.mk ((cs.drop 2).take 2) ++
      ":" ++ String.mk (cs.drop 4))
  else
    match cs with
    | h1 :: h2 :: ':' :: m1 :: m2 :: ':' :: s1 :: s2 :: _ =>
      if ([h1, h2, m1, m2, s1, s2]).all Char.isDigit then
        some (String.mk (cs.take 8))
      else none
    | _ => none

/-- `FieldMapper.buildTimestamp(record, mapping)`: reads the two properties
named by the `date|time` compound path, returns null when either is falsy,
validates each against the supported shapes (emitting the warn diagnostic of
the source as the second component on rejection), combines them as
`YYYY-MM-DD HH:mm:ss` and finally applies the optional transformation rule.
The shape tests coerce the property to a string as the JS regex test does
(a non-string value passing a shape test would make the JS `slice` call
throw; the claims only exercise string-valued fields). -/
def buildTimestamp (record : Value) (m : FieldMapping) : Value × List String :=
  let dt := jsIndex record (dateKeyOf m)
  let tm := jsIndex record (timeKeyOf m)
  if dt.isFalsy || tm.isFalsy then (.vnull, [])
  else
    let sdt := jsToString dt
    let stm := jsToString tm
    match datePartOf sdt with
    | none => (.vnull, ["Invalid date format: " ++ sdt])
    | some dpart =>
      match timePartOf stm with
      | none => (.vnull, ["Invalid time format: " ++ stm])
      | some tpart =>
        let v0 : Value := .str (dpart ++ " " ++ tpart)
        match m.pvfm_transform_rule with
        | some rule =>
          if rule ≠ "" then ((applyTransformation v0 rule).1, [])
          else (v0, [])
        | none => (v0, [])

end FieldMapper

namespace FieldMapper

/-- The property key read by `record?.[mapping.pvfm_json_path]` (a NULL
path column reads the property named "null", as JS property keys are
stringified). -/
def jsonPathKey (m : FieldMapping) : String :=
  m.pvfm_json_path.getD "null"

/-- Whether the mapping's path is truthy and contains the compound
`date|time` marker. -/
def isCompoundPath (m : FieldMapping) : Bool :=
  match m.pvfm_json_path with
  | some p => p ≠ "" && strIncludes p "|"
  | none => false

/-- The JSON-flavoured source kinds of `FieldMapper.applyMapping`. -/
def isJsonKind (sourceType : String) : Bool :=
  sourceType = "api" || sourceType = "json" || sourceType = "xml" ||
    sourceType = "soap" || sourceType = "multiapi"

/-- `FieldMapper.applyMapping(record, mapping)`: a compound `date|time`
path goes to `buildTimestamp`; for JSON-flavoured sources an item/payment
mapping that declares a row root first tries the whole path string as a
direct property and falls back to the nested resolver when the property is
undefined and the path is dotted; a header mapping without a row root reads
the direct property; the remaining JSON cases run the nested resolver on a
truthy path; for database sources the row is indexed by the source-field
name (indexing a null row throws).  A resolved non-nullish value is passed
through the optional transformation rule. -/
def applyMapping (sourceType : String) (record : Value) (m : FieldMapping) :
    Except Unit Value :=
  if isCompoundPath m then .ok (buildTimestamp record m).1
  else do
    let v ←
      if isJsonKind sourceType then
        if m.pvfm_tablename ≠ "raw_transactions" &&
            optTruthy m.pvfm_row_root_json_path then
          let v1 := jsIndex record (jsonPathKey m)
          match m.pvfm_json_path with
          | some p =>
            if v1 = .undefined && strIncludes p "." then extractByJsonPath record p
            else pure v1
          | none => pure v1
        else if m.pvfm_tablename = "raw_transactions" &&
            !optTruthy m.pvfm_row_root_json_path then
          pure (jsIndex record (jsonPathKey m))
        else
          match m.pvfm_json_path with
          | some p =>
            if p ≠ "" then extractByJsonPath record p else pure Value.undefined
          | none => pure Value.undefined
      else
        if m.pvfm_source_field ≠ "" then
          match record with
          | .vnull => Except.error ()
          | .undefined => Except.error ()
          | r => pure (jsIndex r m.pvfm_source_field)
        else pure Value.undefined
    if optTruthy m.pvfm_transform_rule && !v.isNullOrUndef then
      pure (applyTransformation v (m.pvfm_transform_rule.getD "")).1
    else pure v

/-- The mapping rules consumed for one canonical table
(`FieldMapper.getMappings`). -/
def getMappings (fieldMappings : List FieldMapping) (tableName : String) :
    List FieldMapping :=
  fieldMappings.filter (fun m => m.pvfm_tablename = tableName)

/-- The row root consumed by `mapFlexibleTable`: the first rule's declared
row-root path, with a falsy value collapsing to none
(`mappings[0]?.pvfm_row_root_json_path || null`). -/
def rowRootOf (mappings : List FieldMapping) : Option String :=
  match mappings.head? with
  | some m =>
    match m.pvfm_row_root_json_path with
    | some rr => if rr = "" then none else some rr
    | none => none
  | none => none

/-- One row of `mapFlexibleTable`: the parent header's identity fields are
copied down first (`transaction_id, brand/outlet ids and names, terminal,
gate, transaction_time, received_at, invoice_no`), a table-specific
generated id is added, and then every mapping rule whose resolved value is
neither undefined nor null assigns its source-field name — possibly
overwriting a copied field. -/
def mapRowFlexible (sourceType : String) (mappings : List FieldMapping)
    (txMapped : JsObj Value) (tableName : String) (transactionId : Value)
    (rowId : String) (row : Value) : Except Unit (JsObj Value) :=
  let fromTx := fun (k : String) => (JsObj.get txMapped k).getD .undefined
  let base : JsObj Value :=
    [("transaction_id", transactionId),
     ("brand_id", fromTx "brand_id"),
     ("brand_name", fromTx "brand_name"),
     ("outlet_id", fromTx "outlet_id"),
     ("outlet_name", fromTx "outlet_name"),
     ("terminal", fromTx "terminal"),
     ("gate", fromTx "gate"),
     ("transaction_time", fromTx "transaction_time"),
     ("received_at", fromTx "received_at"),
     ("invoice_no", fromTx "invoice_no")]
  let base :=
    if tableName = "raw_transaction_items" then
      JsObj.set base "item_line_id" (.str rowId)
    else if tableName = "raw_payment" then
      JsObj.set base "payment_id" (.str rowId)
    else base
  mappings.foldlM
    (fun acc m => do
      let v ← applyMapping sourceType row m
      pure (if v.isNullOrUndef then acc else JsObj.set acc m.pvfm_source_field v))
    base

/-- `if (!Array.isArray(rows)) rows = [rows]`: a non-array row source
becomes a one-element row list. -/
def toRowList (v : Value) : List Value :=
  match v with
  | .arr l => l
  | v => [v]

/-- Index-aware effectful map over the rows (the `rows.map` callback of the
source, which allocates one generated id per row). -/
def mapRows (f : Nat × Value → Except Unit (JsObj Value)) :
    List (Nat × Value) → Except Unit (List (JsObj Value))
  | [] => .ok []
  | x :: xs => do
    let y ← f x
    let ys ← mapRows f xs
    pure (y :: ys)

/-- `FieldMapper.mapFlexibleTable(record, txMapped, tableName,
transactionId)`: no rules for the table yields no rows; otherwise the row
source is the resolved row root when one is declared (the record itself
when not), with a falsy resolution falling back to the whole record; a
non-array row source becomes a one-element row list; each row is mapped by
`mapRowFlexible` with a fresh generated id. -/
def mapFlexibleTable (sourceType : String) (fieldMappings : List FieldMapping)
    (record : Value) (txMapped : JsObj Value) (tableName : String)
    (transactionId : Value) (uuidOf : Nat → String) :
    Except Unit (List (JsObj Value)) :=
  let mappings := getMappings fieldMappings tableName
  if mappings.isEmpty then .ok []
  else do
    let rows0 : Value ←
      match rowRootOf mappings with
      | some rr => extractByJsonPath record rr
      | none => pure record
    let rows1 := if rows0.isFalsy then record else rows0
    let rowList := toRowList rows1
    if rowList.isEmpty then pure []
    else
      mapRows
        (fun p =>
          mapRowFlexible sourceType mappings txMapped tableName transactionId
            (uuidOf p.1) p.2)
        rowList.enum

theorem toRowList_nonarr (v : Value) (h : v.isArr = false) :
    toRowList v = [v] := by
  cases v <;> simp_all [Value.isArr, toRowList]

theorem mapRows_singleton (f : Nat × Value → Except Unit (JsObj Value))
    (x : Nat × Value) (res : List (JsObj Value))
    (h : mapRows f [x] = .ok res) : res.length = 1 := by
  cases hf : f x with
  | error e => simp [mapRows, hf, bind, Except.bind] at h
  | ok y =>
    simp [mapRows, hf, bind, Except.bind, pure, Except.pure] at h
    simp [← h]

end FieldMapper

/-! ## Correlation and grouping (DataFetcher SOAP segments, multi-API,
DbTransactionMapper flat rows) -/

namespace DataFetcher

/-- One correlation group `{receipt_no, transaction, items, payments}`
(the multi-API variant names the key field `RCPT_NUM`; `transaction = none`
models its null slot). -/
structure RcptGroup where
  receipt_no : Value := .undefined
  transaction : Option Value := none
  items : List Value := []
  payments : List Value := []
deriving DecidableEq, Repr

/-- The transactions pass of `DataFetcher.groupByReceiptNoFromSoap`: a row
with a falsy `RECEIPT_NO` is skipped, otherwise the whole group slot for the
(stringified) receipt key is replaced by a fresh slot holding the row. -/
def soapAddTransactions (gm : JsObj RcptGroup) : List Value → JsObj RcptGroup
  | [] => gm
  | tx :: rest =>
    let receipt := jsIndex tx "RECEIPT_NO"
    if receipt.isFalsy then soapAddTransactions gm rest
    else
      soapAddTransactions
        (JsObj.set gm (jsToString receipt)
          { receipt_no := receipt, transaction := some tx,
            items := [], payments := [] })
        rest

/-- The items pass: a row with a falsy `RECEIPT_NO` is skipped; otherwise
an empty slot (`transaction = null`) is created when the key is new and the
row is appended to the slot's items. -/
def soapAddItems (gm : JsObj RcptGroup) : List Value → JsObj RcptGroup
  | [] => gm
  | item :: rest =>
    let receipt := jsIndex item "RECEIPT_NO"
    if receipt.isFalsy then soapAddItems gm rest
    else
      let key := jsToString receipt
      let g := (JsObj.get gm key).getD
        { receipt_no := receipt, transaction := none, items := [], payments := [] }
      soapAddItems (JsObj.set gm key { g with items := g.items ++ [item] }) rest

/-- The payments pass, like the items pass. -/
def soapAddPayments (gm : JsObj RcptGroup) : List Value → JsObj RcptGroup
  | [] => gm
  | pay :: rest =>
    let receipt := jsIndex pay "RECEIPT_NO"
    if receipt.isFalsy then soapAddPayments gm rest
    else
      let key := jsToString receipt
      let g := (JsObj.get gm key).getD
        { receipt_no := receipt, transaction := none, items := [], payments := [] }
      soapAddPayments (JsObj.set gm key { g with payments := g.payments ++ [pay] }) rest

/-- The grouped map built by `groupByReceiptNoFromSoap` before
`Object.values`. -/
def soapGroupMap (transactions items payments : List Value) : JsObj RcptGroup :=
  soapAddPayments (soapAddItems (soapAddTransactions [] transactions) items)
    payments

/-- `DataFetcher.groupByReceiptNoFromSoap`: three passes over the
transaction, item and payment segments into a plain JS object keyed by
receipt number, returned through `Object.values`. -/
def groupByReceiptNoFromSoap (transactions items payments : List Value) :
    List RcptGroup :=
  JsObj.enumValues (soapGroupMap transactions items payments)

/-- The transactions pass of `DataFetcher.groupByReceiptmultiapi`: no falsy
check at all — a missing `RCPT_NUM` yields the property key "undefined";
the slot is created on demand and its transaction assigned. -/
def multiAddTransactions (gm : JsObj RcptGroup) : List Value → JsObj RcptGroup
  | [] => gm
  | txn :: rest =>
    let rcpt := jsIndex txn "RCPT_NUM"
    let key := jsToString rcpt
    let g := (JsObj.get gm key).getD
      { receipt_no := rcpt, transaction := none, items := [], payments := [] }
    multiAddTransactions (JsObj.set gm key { g with transaction := some txn }) rest

/-- The items pass of the multi-API grouping (again no falsy check). -/
def multiAddItems (gm : JsObj RcptGroup) : List Value → JsObj RcptGroup
  | [] => gm
  | item :: rest =>
    let rcpt := jsIndex item "RCPT_NUM"
    let key := jsToString rcpt
    let g := (JsObj.get gm key).getD
      { receipt_no := rcpt, transaction := none, items := [], payments := [] }
    multiAddItems (JsObj.set gm key { g with items := g.items ++ [item] }) rest

/-- The payments pass of the multi-API grouping. -/
def multiAddPayments (gm : JsObj RcptGroup) : List Value → JsObj RcptGroup
  | [] => gm
  | pay :: rest =>
    let rcpt := jsIndex pay "RCPT_NUM"
    let key := jsToString rcpt
    let g := (JsObj.get gm key).getD
      { receipt_no := rcpt, transaction := none, items := [], payments := [] }
    multiAddPayments (JsObj.set gm key { g with payments := g.payments ++ [pay] }) rest

/-- `DataFetcher.groupByReceiptmultiapi(items, payments, transactions)`:
transactions, then items, then payments, into a plain JS object keyed by
`RCPT_NUM`, returned through `Object.values`. -/
def groupByReceiptmultiapi (items payments transactions : List Value) :
    List RcptGroup :=
  JsObj.enumValues
    (multiAddPayments (multiAddItems (multiAddTransactions [] transactions) items)
      payments)

end DataFetcher

namespace DbTransactionMapper

open FieldMapper (FieldMapping optTruthy getMappings)

/-- `DbTransactionMapper.extractByJsonPath`: the plain reduce
`path.split('.').reduce((o, k) => (o ? o[k] : undefined), obj)` — total,
a falsy intermediate yields undefined. -/
def extractByJsonPath (obj : Value) (path : String) : Value :=
  (strSplitOnDot path).foldl
    (fun o k => if o.isFalsy then .undefined else jsIndex o k) obj

/-- `DbTransactionMapper.buildTimestamp(date, time)`: null when either part
is falsy, otherwise the JS `Date` built from the template
`` `${date}T${time}` `` (the model parses the ISO date shape; other
shapes give an Invalid Date). -/
def buildTimestamp (dt tm : Value) : Value :=
  if dt.isFalsy || tm.isFalsy then .vnull
  else .date (jsNewDateMs (.str (jsToString dt ++ "T" ++ jsToString tm)))

/-- The try-block of `DbTransactionMapper.applyTransformation` (first
variant: case folding, numeric parsing, toISOString). -/
def applyTransformationTry (v : Value) (rule : String) : Except String Value :=
  if strIncludes rule "toUpperCase" then .ok (.str (strMapUpper (jsToString v)))
  else if strIncludes rule "toLowerCase" then .ok (.str (strMapLower (jsToString v)))
  else if strIncludes rule "parseFloat" then .ok (jsParseFloat v)
  else if strIncludes rule "parseInt" then .ok (jsParseInt v)
  else if strIncludes rule "toISOString" then jsToISOStringTry v
  else .ok v

/-- `DbTransactionMapper.applyTransformation`: the catch swallows the
exception and returns the original value. -/
def applyTransformation (v : Value) (rule : String) : Value :=
  match applyTransformationTry v rule with
  | .ok w => w
  | .error _ => v

/-- Whether the mapping's target-field column is truthy and carries the
compound `date|time` marker. -/
def isCompoundTarget (m : FieldMapping) : Bool :=
  match m.pvfm_target_field with
  | some t => t ≠ "" && strIncludes t "|"
  | none => false

/-- `DbTransactionMapper.applyMapping(record, mapping)`: a compound
`date|time` target reads the two named columns into `buildTimestamp`;
JSON-flavoured sources resolve the truthy JSON path with the reduce
resolver; database sources read the column named by the truthy target
field; a non-nullish resolved value passes through the optional
transformation rule.  (Column reads on a null row, which would throw in
JS, are modelled as undefined — the rows come from SQL result sets.) -/
def applyMapping (sourceType : String) (record : Value) (m : FieldMapping) :
    Value :=
  if isCompoundTarget m then
    let parts := strSplitOnChar '|' (m.pvfm_target_field.getD "")
    let dateCol := (parts.get? 0).getD "undefined"
    let timeCol := (parts.get? 1).getD "undefined"
    buildTimestamp (jsIndex record dateCol) (jsIndex record timeCol)
  else
    let v :=
      if sourceType = "api" || sourceType = "json" || sourceType = "xml" ||
          sourceType = "soap" then
        match m.pvfm_json_path with
        | some p => if p ≠ "" then extractByJsonPath record p else .undefined
        | none => .undefined
      else
        match m.pvfm_target_field with
        | some t => if t ≠ "" then jsIndex record t else .undefined
        | none => .undefined
    if optTruthy m.pvfm_transform_rule && !v.isNullOrUndef then
      applyTransformation v (m.pvfm_transform_rule.getD "")
    else v

/-- `DbTransactionMapper.getInvoiceMapping`. -/
def getInvoiceMapping (fieldMappings : List FieldMapping) :
    Option FieldMapping :=
  fieldMappings.find?
    (fun m => m.pvfm_tablename = "raw_transactions" &&
      m.pvfm_source_field = "invoice_no")

/-- The grouping loop of `DbTransactionMapper.mapTransactions`: the invoice
number resolved by the invoice mapping keys a plain JS object of row lists;
a falsy invoice number discards the row (with no count kept). -/
def dbGroupRows (sourceType : String) (invMapping : FieldMapping)
    (gm : JsObj (List Value)) : List Value → JsObj (List Value)
  | [] => gm
  | row :: rest =>
    let invoiceNo := applyMapping sourceType row invMapping
    if invoiceNo.isFalsy then dbGroupRows sourceType invMapping gm rest
    else
      let key := jsToString invoiceNo
      let cur := (JsObj.get gm key).getD []
      dbGroupRows sourceType invMapping (JsObj.set gm key (cur ++ [row])) rest

/-- The configuration fields seeded into every canonical header by
`DbTransactionMapper.mapTransactionHeader`. -/
structure DbConfig where
  cac_pos_vendor : Value := .undefined
  cac_config_id : Value := .undefined
  com_brand_id : Value := .undefined
  brand_name : Value := .undefined
  com_outlet_id : Value := .undefined
  cac_outlet_id : Value := .undefined
  com_terminal : Value := .undefined
  com_gate : Value := .undefined
deriving Repr

/-- `DbTransactionMapper.mapTransactionHeader(row)`: the canonical header
seeded from the configuration (with two generated ids), then every
raw-transactions mapping rule whose resolved value is non-nullish assigns
its source-field name. -/
def mapTransactionHeader (sourceType : String)
    (fieldMappings : List FieldMapping) (cfg : DbConfig) (uid1 uid2 : String)
    (row : Value) : JsObj Value :=
  let tx : JsObj Value :=
    [("transaction_id", .str uid1), ("batch_id", .str uid2),
     ("source_system", cfg.cac_pos_vendor), ("agent_id", cfg.cac_config_id),
     ("brand_id", cfg.com_brand_id), ("brand_name", cfg.brand_name),
     ("outlet_id", cfg.com_outlet_id), ("outlet_name", cfg.cac_outlet_id),
     ("terminal", cfg.com_terminal), ("gate", cfg.com_gate),
     ("transaction_type", .str "SALE")]
  (getMappings fieldMappings "raw_transactions").foldl
    (fun acc m =>
      let v := applyMapping sourceType row m
      if v.isNullOrUndef then acc else JsObj.set acc m.pvfm_source_field v)
    tx

/-- `DbTransactionMapper.mapItem(row, tx)`: the parent header's identity
fields are copied down at creation, then the raw-transaction-items rules
assign their source-field names. -/
def mapItem (sourceType : String) (fieldMappings : List FieldMapping)
    (uid : String) (row : Value) (tx : JsObj Value) : JsObj Value :=
  let fromTx := fun (k : String) => (JsObj.get tx k).getD .undefined
  let item : JsObj Value :=
    [("item_line_id", .str uid),
     ("transaction_id", fromTx "transaction_id"),
     ("brand_id", fromTx "brand_id"),
     ("brand_name", fromTx "brand_name"),
     ("outlet_id", fromTx "outlet_id"),
     ("outlet_name", fromTx "outlet_name"),
     ("terminal", fromTx "terminal"),
     ("gate", fromTx "gate"),
     ("transaction_time", fromTx "transaction_time"),
     ("invoice_no", fromTx "invoice_no")]
  (getMappings fieldMappings "raw_transaction_items").foldl
    (fun acc m =>
      let v := applyMapping sourceType row m
      if v.isNullOrUndef then acc else JsObj.set acc m.pvfm_source_field v)
    item

/-- `DbTransactionMapper.mapPayment(row, tx)`: one payment per transaction,
copied down from the parent header like `mapItem`, returned as a
one-element list. -/
def mapPayment (sourceType : String) (fieldMappings : List FieldMapping)
    (uid : String) (row : Value) (tx : JsObj Value) : List (JsObj Value) :=
  let fromTx := fun (k : String) => (JsObj.get tx k).getD .undefined
  let payment : JsObj Value :=
    [("payment_id", .str uid),
     ("transaction_id", fromTx "transaction_id"),
     ("brand_id", fromTx "brand_id"),
     ("brand_name", fromTx "brand_name"),
     ("outlet_id", fromTx "outlet_id"),
     ("outlet_name", fromTx "outlet_name"),
     ("terminal", fromTx "terminal"),
     ("gate", fromTx "gate"),
     ("transaction_time", fromTx "transaction_time"),
     ("invoice_no", fromTx "invoice_no")]
  [(getMappings fieldMappings "raw_payment").foldl
    (fun acc m =>
      let v := applyMapping sourceType row m
      if v.isNullOrUndef then acc else JsObj.set acc m.pvfm_source_field v)
    payment]

/-- One canonical transaction of the DB mapper: the header object plus its
items and payments collections (the source stores the collections on the
header object itself). -/
structure DbTx where
  header : JsObj Value
  items : List (JsObj Value)
  payments : List (JsObj Value)
deriving Repr

/-- The output loop of `mapTransactions`: one canonical transaction per
enumerated invoice key, in `Object.keys` order, with the first row of the
group as header row; generated ids are drawn from the injected supply. -/
def buildTxForKeys (sourceType : String) (fieldMappings : List FieldMapping)
    (cfg : DbConfig) (uuidOf : Nat → String) (grouped : JsObj (List Value)) :
    List String → Nat → List DbTx
  | [], _ => []
  | key :: rest, c =>
    let rowsOfKey := (JsObj.get grouped key).getD []
    let headerRow := rowsOfKey.head?.getD .undefined
    let tx := mapTransactionHeader sourceType fieldMappings cfg (uuidOf c)
      (uuidOf (c + 1)) headerRow
    let items := rowsOfKey.enum.map
      (fun p => mapItem sourceType fieldMappings (uuidOf (c + 2 + p.1)) p.2 tx)
    let payments := mapPayment sourceType fieldMappings
      (uuidOf (c + 2 + rowsOfKey.length)) headerRow tx
    { header := tx, items := items, payments := payments } ::
      buildTxForKeys sourceType fieldMappings cfg uuidOf grouped rest
        (c + 3 + rowsOfKey.length)

/-- `DbTransactionMapper.mapTransactions(dbRows)`: accepts a row array or
an object with an `AllData` array (anything else yields no transactions);
requires the invoice mapping (throwing when absent); groups the rows by
resolved invoice number and emits one canonical transaction per key in
`Object.keys` enumeration order. -/
def mapTransactions (sourceType : String)
    (fieldMappings : List FieldMapping) (cfg : DbConfig) (uuidOf : Nat → String)
    (dbRows : Value) : Except String (List DbTx) :=
  let rows? : Option (List Value) :=
    match dbRows with
    | .arr l => some l
    | v =>
      match jsIndex v "AllData" with
      | .arr l => some l
      | _ => none
  match rows? with
  | none => .ok []
  | some rows =>
    if rows.isEmpty then .ok []
    else
      match getInvoiceMapping fieldMappings with
      | none => .error "Invoice number mapping not found"
      | some invMapping =>
        let grouped := dbGroupRows sourceType invMapping [] rows
        .ok (buildTxForKeys sourceType fieldMappings cfg uuidOf grouped
          (JsObj.enumKeys grouped) 0)

end DbTransactionMapper

/-- First-seen deduplication of a key stream, the order in which a JS
object accumulates new property keys. -/
def firstSeen (acc : List String) : List String → List String
  | [] => acc
  | k :: rest => if k ∈ acc then firstSeen acc rest else firstSeen (acc ++ [k]) rest

/-- The stream of truthy stringified receipt keys in the order the SOAP
grouper consults them. -/
def DataFetcher.soapKeyStream (transactions items payments : List Value) :
    List String :=
  (transactions ++ items ++ payments).filterMap
    (fun r =>
      let v := jsIndex r "RECEIPT_NO"
      if v.isFalsy then none else some (jsToString v))

/-- The stream of truthy stringified invoice keys in the order the DB
grouper consults them. -/
def DbTransactionMapper.dbKeyStream (sourceType : String)
    (invMapping : FieldMapper.FieldMapping) (rows : List Value) : List String :=
  rows.filterMap
    (fun r =>
      let v := DbTransactionMapper.applyMapping sourceType r invMapping
      if v.isFalsy then none else some (jsToString v))

/-! ## Properties of the JS object model -/

namespace JsObj

variable {A : Type}

theorem mem_set {o : JsObj A} {k : String} {v : A} {e : String × A}
    (h : e ∈ set o k v) : e ∈ o ∨ e = (k, v) := by
  induction o with
  | nil => simpa [set] using h
  | cons f rest IH =>
    obtain ⟨k2, w⟩ := f
    by_cases hk : k2 = k
    · simp [set, hk] at h
      rcases h with h | h
      · right; simpa [hk] using h
      · left; simp [h]
    · simp [set, hk] at h
      rcases h with h | h
      · left; simp [h]
      · rcases IH h with h2 | h2
        · left; simp [h2]
        · right; exact h2

theorem get_set_ne (o : JsObj A) (k k2 : String) (v : A) (h : k ≠ k2) :
    get (set o k v) k2 = get o k2 := by
  induction o with
  | nil => simp [set, get, h]
  | cons f rest IH =>
    obtain ⟨k3, w⟩ := f
    by_cases hk : k3 = k
    · simp [set, get, hk, h]
    · simp only [set, hk, if_false, get]
      split
      · rfl
      · exact IH

theorem map_fst_set (o : JsObj A) (k : String) (v : A) :
    (set o k v).map Prod.fst =
      if k ∈ o.map Prod.fst then o.map Prod.fst else o.map Prod.fst ++ [k] := by
  induction o with
  | nil => simp [set]
  | cons f rest IH =>
    obtain ⟨k2, w⟩ := f
    by_cases hk : k2 = k
    · simp [set, hk]
    · have hk2 : ¬k = k2 := fun c => hk c.symm
      simp only [set, hk, if_false, List.map_cons, IH]
      split <;> split <;> simp_all

theorem mem_insertByNat {e f : String × A} : ∀ {o : JsObj A},
    e ∈ insertByNat f o → e = f ∨ e ∈ o := by
  intro o
  induction o with
  | nil => intro h; simpa [insertByNat] using h
  | cons g rest IH =>
    intro h
    rw [insertByNat] at h
    by_cases hc : strToIndexNat f.1 ≤ strToIndexNat g.1
    · rw [if_pos hc] at h
      rcases List.mem_cons.mp h with h1 | h1
      · left; exact h1
      · right; exact h1
    · rw [if_neg hc] at h
      rcases List.mem_cons.mp h with h1 | h1
      · right; simp [h1]
      · rcases IH h1 with h2 | h2
        · left; exact h2
        · right; simp [h2]

theorem mem_sortByNat {e : String × A} {o : JsObj A}
    (h : e ∈ sortByNat o) : e ∈ o := by
  induction o with
  | nil => simp [sortByNat] at h
  | cons f rest IH =>
    simp only [sortByNat] at h
    rcases mem_insertByNat h with h2 | h2
    · simp [h2]
    · simp [IH h2]

theorem mem_enumValues {g : A} {o : JsObj A} (h : g ∈ enumValues o) :
    ∃ k, (k, g) ∈ o := by
  simp only [enumValues, enumEntries, List.map_append, List.mem_append,
    List.mem_map] at h
  rcases h with ⟨⟨k1, g1⟩, he, hg⟩ | ⟨⟨k1, g1⟩, he, hg⟩
  · have h2 : (k1, g1) ∈ o := List.mem_of_mem_filter (mem_sortByNat he)
    exact ⟨k1, by rw [show g1 = g from hg] at h2; exact h2⟩
  · have h2 : (k1, g1) ∈ o := List.mem_of_mem_filter he
    exact ⟨k1, by rw [show g1 = g from hg] at h2; exact h2⟩

theorem enumEntries_of_noIndex {o : JsObj A}
    (h : ∀ k ∈ o.map Prod.fst, isArrayIndexKey k = false) :
    enumEntries o = o := by
  have h1 : o.filter (fun e => isArrayIndexKey e.1) = [] := by
    rw [List.filter_eq_nil_iff]
    intro e he
    have := h e.1 (List.mem_map_of_mem Prod.fst he)
    simp [this]
  have h2 : o.filter (fun e => !isArrayIndexKey e.1) = o := by
    rw [List.filter_eq_self]
    intro e he
    have := h e.1 (List.mem_map_of_mem Prod.fst he)
    simp [this]
  simp [enumEntries, h1, h2, sortByNat]

theorem enumValues_of_noIndex {o : JsObj A}
    (h : ∀ k ∈ o.map Prod.fst, isArrayIndexKey k = false) :
    enumValues o = o.map Prod.snd := by
  simp [enumValues, enumEntries_of_noIndex h]

theorem enumKeys_of_noIndex {o : JsObj A}
    (h : ∀ k ∈ o.map Prod.fst, isArrayIndexKey k = false) :
    enumKeys o = o.map Prod.fst := by
  simp [enumKeys, enumEntries_of_noIndex h]

end JsObj

theorem firstSeen_append (acc : List String) (s1 s2 : List String) :
    firstSeen acc (s1 ++ s2) = firstSeen (firstSeen acc s1) s2 := by
  induction s1 generalizing acc with
  | nil => simp [firstSeen]
  | cons k rest IH =>
    simp only [List.cons_append, firstSeen]
    split <;> exact IH _

namespace JsObj

theorem get_mem {A : Type} {o : JsObj A} {k : String} {v : A}
    (h : get o k = some v) : (k, v) ∈ o := by
  induction o with
  | nil => simp [get] at h
  | cons f rest IH =>
    obtain ⟨k2, w⟩ := f
    by_cases hk : k2 = k
    · simp [get, hk] at h
      simp [hk, h]
    · simp only [get, hk, if_false] at h
      simp [IH h]

end JsObj

namespace DataFetcher

/-- No orphan row inside a group: every stored item, payment and
transaction row carries a truthy `RECEIPT_NO`. -/
def groupNoOrphans (g : RcptGroup) : Prop :=
  (∀ it ∈ g.items, (jsIndex it "RECEIPT_NO").isFalsy = false) ∧
  (∀ p ∈ g.payments, (jsIndex p "RECEIPT_NO").isFalsy = false) ∧
  (∀ t, g.transaction = some t → (jsIndex t "RECEIPT_NO").isFalsy = false)

theorem soapAddTransactions_noOrphans :
    ∀ (l : List Value) (gm : JsObj RcptGroup),
      (∀ k g, (k, g) ∈ gm → groupNoOrphans g) →
      ∀ k g, (k, g) ∈ soapAddTransactions gm l → groupNoOrphans g := by
  intro l
  induction l with
  | nil => intro gm h k g hm; exact h k g hm
  | cons tx rest IH =>
    intro gm h k g hm
    simp only [soapAddTransactions] at hm
    split at hm
    · exact IH gm h k g hm
    · refine IH _ ?_ k g hm
      intro k2 g2 hmem
      rcases JsObj.mem_set hmem with h2 | h2
      · exact h k2 g2 h2
      · have hg2 := congrArg Prod.snd h2
        simp only at hg2
        subst hg2
        refine ⟨by simp, by simp, ?_⟩
        intro t ht
        simp only [Option.some.injEq] at ht
        subst ht
        simp_all

theorem soapAddItems_noOrphans :
    ∀ (l : List Value) (gm : JsObj RcptGroup),
      (∀ k g, (k, g) ∈ gm → groupNoOrphans g) →
      ∀ k g, (k, g) ∈ soapAddItems gm l → groupNoOrphans g := by
  intro l
  induction l with
  | nil => intro gm h k g hm; exact h k g hm
  | cons item rest IH =>
    intro gm h k g hm
    simp only [soapAddItems] at hm
    split at hm
    · exact IH gm h k g hm
    · refine IH _ ?_ k g hm
      intro k2 g2 hmem
      rcases JsObj.mem_set hmem with h2 | h2
      · exact h k2 g2 h2
      · have hg2 := congrArg Prod.snd h2
        simp only at hg2
        subst hg2
        cases hget : JsObj.get gm (jsToString (jsIndex item "RECEIPT_NO")) with
        | none =>
          simp only [hget, Option.getD_none]
          refine ⟨?_, by simp, by simp⟩
          intro it hit
          simp only [List.nil_append, List.mem_singleton] at hit
          subst hit
          simp_all
        | some g0 =>
          have hg0 := h _ g0 (JsObj.get_mem hget)
          simp only [hget, Option.getD_some]
          refine ⟨?_, hg0.2.1, hg0.2.2⟩
          intro it hit
          rcases List.mem_append.mp hit with h3 | h3
          · exact hg0.1 it h3
          · simp only [List.mem_singleton] at h3
            subst h3
            simp_all

theorem soapAddPayments_noOrphans :
    ∀ (l : List Value) (gm : JsObj RcptGroup),
      (∀ k g, (k, g) ∈ gm → groupNoOrphans g) →
      ∀ k g, (k, g) ∈ soapAddPayments gm l → groupNoOrphans g := by
  intro l
  induction l with
  | nil => intro gm h k g hm; exact h k g hm
  | cons pay rest IH =>
    intro gm h k g hm
    simp only [soapAddPayments] at hm
    split at hm
    · exact IH gm h k g hm
    · refine IH _ ?_ k g hm
      intro k2 g2 hmem
      rcases JsObj.mem_set hmem with h2 | h2
      · exact h k2 g2 h2
      · have hg2 := congrArg Prod.snd h2
        simp only at hg2
        subst hg2
        cases hget : JsObj.get gm (jsToString (jsIndex pay "RECEIPT_NO")) with
        | none =>
          simp only [hget, Option.getD_none]
          refine ⟨by simp, ?_, by simp⟩
          intro p hp
          simp only [List.nil_append, List.mem_singleton] at hp
          subst hp
          simp_all
        | some g0 =>
          have hg0 := h _ g0 (JsObj.get_mem hget)
          simp only [hget, Option.getD_some]
          refine ⟨hg0.1, ?_, hg0.2.2⟩
          intro p hp
          rcases List.mem_append.mp hp with h3 | h3
          · exact hg0.2.1 p h3
          · simp only [List.mem_singleton] at h3
            subst h3
            simp_all

/-- The receipt-key stream of one pass. -/
def passKeys (field : String) (l : List Value) : List String :=
  l.filterMap
    (fun r =>
      let v := jsIndex r field
      if v.isFalsy then none else some (jsToString v))

theorem soapAddTransactions_keys :
    ∀ (l : List Value) (gm : JsObj RcptGroup),
      (soapAddTransactions gm l).map Prod.fst =
        firstSeen (gm.map Prod.fst) (passKeys "RECEIPT_NO" l) := by
  intro l
  induction l with
  | nil => intro gm; simp [soapAddTransactions, passKeys, firstSeen]
  | cons tx rest IH =>
    intro gm
    simp only [soapAddTransactions, passKeys, List.filterMap_cons]
    split
    · simpa [passKeys] using IH gm
    · simp only [firstSeen, passKeys] at IH ⊢
      rw [IH, JsObj.map_fst_set]
      split <;> simp_all

theorem soapAddItems_keys :
    ∀ (l : List Value) (gm : JsObj RcptGroup),
      (soapAddItems gm l).map Prod.fst =
        firstSeen (gm.map Prod.fst) (passKeys "RECEIPT_NO" l) := by
  intro l
  induction l with
  | nil => intro gm; simp [soapAddItems, passKeys, firstSeen]
  | cons item rest IH =>
    intro gm
    simp only [soapAddItems, passKeys, List.filterMap_cons]
    split
    · simpa [passKeys] using IH gm
    · simp only [firstSeen, passKeys] at IH ⊢
      rw [IH, JsObj.map_fst_set]
      split <;> simp_all

theorem soapAddPayments_keys :
    ∀ (l : List Value) (gm : JsObj RcptGroup),
      (soapAddPayments gm l).map Prod.fst =
        firstSeen (gm.map Prod.fst) (passKeys "RECEIPT_NO" l) := by
  intro l
  induction l with
  | nil => intro gm; simp [soapAddPayments, passKeys, firstSeen]
  | cons pay rest IH =>
    intro gm
    simp only [soapAddPayments, passKeys, List.filterMap_cons]
    split
    · simpa [passKeys] using IH gm
    · simp only [firstSeen, passKeys] at IH ⊢
      rw [IH, JsObj.map_fst_set]
      split <;> simp_all

theorem soapGroupMap_keys (transactions items payments : List Value) :
    (soapGroupMap transactions items payments).map Prod.fst =
      firstSeen [] (soapKeyStream transactions items payments) := by
  have h1 : soapKeyStream transactions items payments =
      passKeys "RECEIPT_NO" transactions ++ passKeys "RECEIPT_NO" items ++
        passKeys "RECEIPT_NO" payments := by
    simp [soapKeyStream, passKeys, List.filterMap_append]
  rw [soapGroupMap, soapAddPayments_keys, soapAddItems_keys,
    soapAddTransactions_keys, h1, firstSeen_append, firstSeen_append]
  simp

end DataFetcher

namespace DbTransactionMapper

theorem dbGroupRows_noOrphans (sourceType : String)
    (invMapping : FieldMapper.FieldMapping) :
    ∀ (rows : List Value) (gm : JsObj (List Value)),
      (∀ k grp, (k, grp) ∈ gm →
        ∀ r ∈ grp, (applyMapping sourceType r invMapping).isFalsy = false) →
      ∀ k grp, (k, grp) ∈ dbGroupRows sourceType invMapping gm rows →
        ∀ r ∈ grp, (applyMapping sourceType r invMapping).isFalsy = false := by
  intro rows
  induction rows with
  | nil => intro gm h k grp hm; exact h k grp hm
  | cons row rest IH =>
    intro gm h k grp hm
    simp only [dbGroupRows] at hm
    split at hm
    · exact IH gm h k grp hm
    · refine IH _ ?_ k grp hm
      intro k2 grp2 hmem
      rcases JsObj.mem_set hmem with h2 | h2
      · exact h k2 grp2 h2
      · have hg2 := congrArg Prod.snd h2
        simp only at hg2
        subst hg2
        intro r hr
        cases hget : JsObj.get gm (jsToString
            (applyMapping sourceType row invMapping)) with
        | none =>
          rw [hget] at hr
          simp only [Option.getD_none, List.nil_append,
            List.mem_singleton] at hr
          subst hr
          simp_all
        | some grp0 =>
          rw [hget] at hr
          simp only [Option.getD_some] at hr
          rcases List.mem_append.mp hr with h3 | h3
          · exact h _ grp0 (JsObj.get_mem hget) r h3
          · simp only [List.mem_singleton] at h3
            subst h3
            simp_all

theorem dbGroupRows_keys (sourceType : String)
    (invMapping : FieldMapper.FieldMapping) :
    ∀ (rows : List Value) (gm : JsObj (List Value)),
      (dbGroupRows sourceType invMapping gm rows).map Prod.fst =
        firstSeen (gm.map Prod.fst) (dbKeyStream sourceType invMapping rows) := by
  intro rows
  induction rows with
  | nil => intro gm; simp [dbGroupRows, dbKeyStream, firstSeen]
  | cons row rest IH =>
    intro gm
    simp only [dbGroupRows, dbKeyStream, List.filterMap_cons]
    split
    · simpa [dbKeyStream] using IH gm
    · simp only [firstSeen, dbKeyStream] at IH ⊢
      rw [IH, JsObj.map_fst_set]
      split <;> simp_all

end DbTransactionMapper

namespace FieldMapper

theorem foldlM_mapping_get (k : String) (f : FieldMapping → Except Unit Value) :
    ∀ (mappings : List FieldMapping) (acc : JsObj Value),
      (∀ m ∈ mappings, m.pvfm_source_field ≠ k) →
      ∀ r,
        mappings.foldlM
          (fun acc m => do
            let v ← f m
            pure (if v.isNullOrUndef then acc
              else JsObj.set acc m.pvfm_source_field v))
          acc = .ok r →
        JsObj.get r k = JsObj.get acc k := by
  intro mappings
  induction mappings with
  | nil =>
    intro acc hm r h
    simp only [List.foldlM_nil, pure, Except.pure, Except.ok.injEq] at h
    rw [← h]
  | cons m rest IH =>
    intro acc hm r h
    simp only [List.foldlM_cons, bind, Except.bind] at h
    cases hf : f m with
    | error e => rw [hf] at h; cases h
    | ok v =>
      rw [hf] at h
      simp only [pure, Except.pure] at h
      have hne := hm m (List.mem_cons_self m rest)
      have hrest : ∀ m2 ∈ rest, m2.pvfm_source_field ≠ k := fun m2 h2 =>
        hm m2 (List.mem_cons_of_mem m h2)
      by_cases hv : v.isNullOrUndef
      · rw [if_pos hv] at h
        exact IH acc hrest r h
      · rw [if_neg hv] at h
        rw [IH _ hrest r h]
        exact JsObj.get_set_ne acc m.pvfm_source_field k v hne

theorem foldl_mapping_get (k : String) (f : FieldMapping → Value) :
    ∀ (mappings : List FieldMapping) (acc : JsObj Value),
      (∀ m ∈ mappings, m.pvfm_source_field ≠ k) →
      JsObj.get
        (mappings.foldl
          (fun acc m =>
            let v := f m
            if v.isNullOrUndef then acc
            else JsObj.set acc m.pvfm_source_field v)
          acc) k = JsObj.get acc k := by
  intro mappings
  induction mappings with
  | nil => intro acc hm; simp [List.foldl_nil]
  | cons m rest IH =>
    intro acc hm
    have hne := hm m (List.mem_cons_self m rest)
    have hrest : ∀ m2 ∈ rest, m2.pvfm_source_field ≠ k := fun m2 h2 =>
      hm m2 (List.mem_cons_of_mem m h2)
    simp only [List.foldl_cons]
    rw [IH _ hrest]
    by_cases hv : (f m).isNullOrUndef
    · rw [if_pos hv]
    · rw [if_neg hv]
      exact JsObj.get_set_ne acc m.pvfm_source_field k (f m) hne

/-- The header identity fields the claim requires every item and payment to
share with its parent. -/
def identityFields : List String :=
  ["brand_id", "outlet_id", "terminal", "transaction_time", "invoice_no"]

theorem mapRowFlexible_identity (sourceType : String)
    (mappings : List FieldMapping) (txMapped : JsObj Value) (tableName : String)
    (transactionId : Value) (rowId : String) (row : Value) (k : String)
    (hid : k ∈ identityFields)
    (hm : ∀ m ∈ mappings, m.pvfm_source_field ≠ k) :
    ∀ r, mapRowFlexible sourceType mappings txMapped tableName transactionId
        rowId row = .ok r →
      JsObj.get r k = some ((JsObj.get txMapped k).getD .undefined) := by
  intro r h
  unfold mapRowFlexible at h
  rw [foldlM_mapping_get k _ mappings _ hm r h]
  have hk1 : k ≠ "item_line_id" := by
    simp only [identityFields, List.mem_cons, List.mem_singleton,
      List.not_mem_nil, or_false] at hid
    rcases hid with h1 | h1 | h1 | h1 | h1 <;> simp [h1]
  have hk2 : k ≠ "payment_id" := by
    simp only [identityFields, List.mem_cons, List.mem_singleton,
      List.not_mem_nil, or_false] at hid
    rcases hid with h1 | h1 | h1 | h1 | h1 <;> simp [h1]
  have hbase : ∀ (base : JsObj Value),
      JsObj.get
        (if tableName = "raw_transaction_items" then
          JsObj.set base "item_line_id" (.str rowId)
        else if tableName = "raw_payment" then
          JsObj.set base "payment_id" (.str rowId)
        else base) k = JsObj.get base k := by
    intro base
    split
    · exact JsObj.get_set_ne base "item_line_id" k _ (fun c => hk1 c.symm)
    · split
      · exact JsObj.get_set_ne base "payment_id" k _ (fun c => hk2 c.symm)
      · rfl
  rw [hbase]
  simp only [identityFields, List.mem_cons, List.mem_singleton,
    List.not_mem_nil, or_false] at hid
  rcases hid with h1 | h1 | h1 | h1 | h1 <;> subst h1 <;> simp [JsObj.get]

end FieldMapper

namespace DbTransactionMapper

theorem mapItem_identity (sourceType : String)
    (fieldMappings : List FieldMapper.FieldMapping) (uid : String)
    (row : Value) (tx : JsObj Value) (k : String)
    (hid : k ∈ FieldMapper.identityFields)
    (hm : ∀ m ∈ FieldMapper.getMappings fieldMappings "raw_transaction_items",
      m.pvfm_source_field ≠ k) :
    JsObj.get (mapItem sourceType fieldMappings uid row tx) k
      = some ((JsObj.get tx k).getD .undefined) := by
  unfold mapItem
  rw [FieldMapper.foldl_mapping_get k _ _ _ hm]
  simp only [FieldMapper.identityFields, List.mem_cons, List.mem_singleton,
    List.not_mem_nil, or_false] at hid
  rcases hid with h1 | h1 | h1 | h1 | h1 <;> subst h1 <;> simp [JsObj.get]

theorem mapPayment_identity (sourceType : String)
    (fieldMappings : List FieldMapper.FieldMapping) (uid : String)
    (row : Value) (tx : JsObj Value) (k : String)
    (hid : k ∈ FieldMapper.identityFields)
    (hm : ∀ m ∈ FieldMapper.getMappings fieldMappings "raw_payment",
      m.pvfm_source_field ≠ k) :
    ∀ p ∈ mapPayment sourceType fieldMappings uid row tx,
      JsObj.get p k = some ((JsObj.get tx k).getD .undefined) := by
  intro p hp
  unfold mapPayment at hp
  simp only [List.mem_singleton] at hp
  subst hp
  rw [FieldMapper.foldl_mapping_get k _ _ _ hm]
  simp only [FieldMapper.identityFields, List.mem_cons, List.mem_singleton,
    List.not_mem_nil, or_false] at hid
  rcases hid with h1 | h1 | h1 | h1 | h1 <;> subst h1 <;> simp [JsObj.get]

end DbTransactionMapper

/-! ## The batch inserter (DataInserter.insertTransactions) -/

namespace DataInserter

/-- The slice of a canonical transaction the batch inserter consults: the
natural-key columns compared by `checkTransactionExists`
(`invoice_no`, `brand_name`, `outlet_name`) and the identifying dimensions
copied into an exception-log record. -/
structure Tx where
  transaction_id : String := ""
  invoice_no : String := ""
  brand_id : String := ""
  brand_name : String := ""
  outlet_id : String := ""
  outlet_name : String := ""
  terminal : String := ""
  gate : String := ""
deriving DecidableEq, Repr

/-- The `WHERE invoice_no = $1 and brand_name = $2 AND outlet_name = $3`
comparison of the existence checks. -/
def keyMatches (h t : Tx) : Bool :=
  decide (h.invoice_no = t.invoice_no ∧ h.brand_name = t.brand_name ∧
    h.outlet_name = t.outlet_name)

/-- One `raw_exceptions` row as written by `DataInserter.logException`. -/
structure ExcRecord where
  transaction_id : String := ""
  brand_id : String := ""
  brand_name : String := ""
  outlet_id : String := ""
  outlet_name : String := ""
  event_type : String := ""
  terminal : String := ""
  gate : String := ""
  user : String := ""
  reason : String := ""
deriving DecidableEq, Repr

/-- The exception-log record built in the catch branch of the insert loop:
the failing record's identifiers, the INSERT_ERROR event type, and the error
message (the free-form details blob is not modelled). -/
def mkException (t : Tx) (reason : String) : ExcRecord :=
  { transaction_id := t.transaction_id, brand_id := t.brand_id,
    brand_name := t.brand_name, outlet_id := t.outlet_id,
    outlet_name := t.outlet_name, event_type := "INSERT_ERROR",
    terminal := t.terminal, gate := t.gate, user := "system",
    reason := reason }

/-- The database state visible to one batch: the persisted transaction
headers and the exception log.  Within a batch the connection sees its own
uncommitted writes, so the state is threaded through the loop and the final
state is what the COMMIT persists. -/
structure DbState where
  headers : List Tx := []
  exceptions : List ExcRecord := []
deriving DecidableEq, Repr

/-- The per-batch counts returned by `insertTransactions`. -/
structure Outcome where
  successCount : Nat := 0
  errorCount : Nat := 0
  skippedCount : Nat := 0
deriving DecidableEq, Repr

/-- `DataInserter.checkTransactionExists`: natural-key existence probe of
the headers table. -/
def checkTransactionExists (s : DbState) (t : Tx) : Bool :=
  s.headers.any (fun h => keyMatches h t)

/-- `DataInserter.insertTransactions(transactions)`: for each transaction,
an existing natural key increments the skipped count; otherwise the header
insert is attempted — a per-record failure (supplied by the `fails` oracle,
`some reason` modelling a thrown constraint error) is caught, increments
the errored count and appends an exception-log record; success appends the
header and increments the success count.  The loop never aborts and the
final state is committed.  (The batch-level failure path — ROLLBACK and
rethrow on connection loss — is outside the per-record claims and not
modelled.) -/
def insertTransactions (fails : Tx → Option String) :
    List Tx → DbState → Outcome × DbState
  | [], s => ({ successCount := 0, errorCount := 0, skippedCount := 0 }, s)
  | t :: rest, s =>
    if checkTransactionExists s t then
      let r := insertTransactions fails rest s
      ({ r.1 with skippedCount := r.1.skippedCount + 1 }, r.2)
    else
      match fails t with
      | some reason =>
        let s2 := { s with exceptions := s.exceptions ++ [mkException t reason] }
        let r := insertTransactions fails rest s2
        ({ r.1 with errorCount := r.1.errorCount + 1 }, r.2)
      | none =>
        let s2 := { s with headers := s.headers ++ [t] }
        let r := insertTransactions fails rest s2
        ({ r.1 with successCount := r.1.successCount + 1 }, r.2)

theorem keyMatches_self (t : Tx) : keyMatches t t = true := by
  simp [keyMatches]

theorem keyMatches_symm (a b : Tx) : keyMatches a b = keyMatches b a := by
  simp only [keyMatches, decide_eq_decide]
  constructor
  · rintro ⟨h1, h2, h3⟩; exact ⟨h1.symm, h2.symm, h3.symm⟩
  · rintro ⟨h1, h2, h3⟩; exact ⟨h1.symm, h2.symm, h3.symm⟩

theorem checkExists_excLog (s : DbState) (e : List ExcRecord) (t : Tx) :
    checkTransactionExists { s with exceptions := e } t
      = checkTransactionExists s t := rfl

theorem checkExists_snoc (s : DbState) (t t2 : Tx) :
    checkTransactionExists { s with headers := s.headers ++ [t] } t2
      = (checkTransactionExists s t2 || keyMatches t t2) := by
  simp [checkTransactionExists, List.any_append]

theorem filter_isNone_add_isSome (fails : Tx → Option String) (txs : List Tx) :
    (txs.filter (fun t => (fails t).isNone)).length +
      (txs.filter (fun t => (fails t).isSome)).length = txs.length := by
  induction txs with
  | nil => simp
  | cons t rest IH =>
    cases h : fails t <;> simp [h, List.filter_cons] <;> omega

/-- Characterization of one batch over fresh, pairwise-distinct natural
keys: the non-failing records are appended to the headers, the failing ones
produce one exception-log record each, and the counts are the sizes of the
two classes with nothing skipped. -/
theorem insertTransactions_fresh (fails : Tx → Option String) :
    ∀ (txs : List Tx) (s : DbState),
      txs.Pairwise (fun a b => keyMatches a b = false) →
      (∀ t ∈ txs, checkTransactionExists s t = false) →
      insertTransactions fails txs s =
        ({ successCount := (txs.filter (fun t => (fails t).isNone)).length,
           errorCount := (txs.filter (fun t => (fails t).isSome)).length,
           skippedCount := 0 },
         { headers := s.headers ++ txs.filter (fun t => (fails t).isNone),
           exceptions := s.exceptions ++
             (txs.filter (fun t => (fails t).isSome)).map
               (fun t => mkException t ((fails t).getD "")) }) := by
  intro txs
  induction txs with
  | nil => intro s _ _; simp [insertTransactions]
  | cons t rest IH =>
    intro s hdist hfresh
    have hx : checkTransactionExists s t = false :=
      hfresh t (List.mem_cons_self t rest)
    have hdist2 := (List.pairwise_cons.mp hdist).2
    have hhead := (List.pairwise_cons.mp hdist).1
    rw [insertTransactions, hx]
    simp only [Bool.false_eq_true, if_false]
    cases hf : fails t with
    | some reason =>
      have hfresh2 : ∀ t2 ∈ rest,
          checkTransactionExists
            { s with exceptions := s.exceptions ++ [mkException t reason] } t2
            = false := by
        intro t2 h2
        rw [checkExists_excLog]
        exact hfresh t2 (List.mem_cons_of_mem t h2)
      dsimp only
      rw [IH _ hdist2 hfresh2]
      simp [List.filter_cons, hf, List.append_assoc]
    | none =>
      have hfresh2 : ∀ t2 ∈ rest,
          checkTransactionExists { s with headers := s.headers ++ [t] } t2
            = false := by
        intro t2 h2
        rw [checkExists_snoc]
        simp [hfresh t2 (List.mem_cons_of_mem t h2), hhead t2 h2]
      dsimp only
      rw [IH _ hdist2 hfresh2]
      simp [List.filter_cons, hf]

/-- Characterization of a batch every record of which already exists: all
records are skipped and the state is untouched. -/
theorem insertTransactions_allExist (fails : Tx → Option String) :
    ∀ (txs : List Tx) (s : DbState),
      (∀ t ∈ txs, checkTransactionExists s t = true) →
      insertTransactions fails txs s =
        ({ successCount := 0, errorCount := 0, skippedCount := txs.length },
          s) := by
  intro txs
  induction txs with
  | nil => intro s _; simp [insertTransactions]
  | cons t rest IH =>
    intro s hex
    rw [insertTransactions, hex t (List.mem_cons_self t rest)]
    simp only [if_true]
    rw [IH s (fun t2 h2 => hex t2 (List.mem_cons_of_mem t h2))]
    simp

theorem filter_key_singleton :
    ∀ (txs : List Tx),
      txs.Pairwise (fun a b => keyMatches a b = false) →
      ∀ t ∈ txs, txs.filter (fun h => keyMatches h t) = [t] := by
  intro txs
  induction txs with
  | nil => intro _ t ht; simp at ht
  | cons h rest IH =>
    intro hdist t ht
    have hhead := (List.pairwise_cons.mp hdist).1
    have hdist2 := (List.pairwise_cons.mp hdist).2
    rcases List.mem_cons.mp ht with h1 | h1
    · subst h1
      have hrest : rest.filter (fun h2 => keyMatches h2 t) = [] := by
        rw [List.filter_eq_nil_iff]
        intro b hb
        rw [keyMatches_symm]
        simp [hhead b hb]
      simp [List.filter_cons, keyMatches_self, hrest]
    · have hth : keyMatches h t = false := hhead t h1
      simp [List.filter_cons, hth, IH hdist2 t h1]

end DataInserter

/-! ## Claims about the path resolver (C3, C4) -/

/-- C3 (counterexample): the claim that the path resolver never throws is
false — for the tree with a scalar at key a, resolving the path a.x applies
the JS in-operator to a primitive and raises a TypeError (modelled by
`Except.error`). -/
theorem C3_resolver_counterexample :
    FieldMapper.extractByJsonPath (.obj [("a", .num 5)]) "a.x" = .error () := by
  decide

/-- C3 (amended): for the tree with a.b a two-element array of objects with
key c, path a.b[*].c resolves to the ordered flat sequence of the two c
values; a missing key on an object (such as a.x) and a wildcard segment
meeting a non-array each yield the empty result, never an error; and the
resolver throws exactly when a plain (non-wildcard) segment is applied to a
primitive value. -/
theorem C3_resolver_amended :
    (FieldMapper.extractByJsonPath
        (.obj [("a", .obj [("b",
          .arr [.obj [("c", .num 1)], .obj [("c", .num 2)]])])])
        "a.b[*].c" = .ok (.arr [.num 1, .num 2]))
    ∧ (FieldMapper.extractByJsonPath
        (.obj [("a", .obj [("b",
          .arr [.obj [("c", .num 1)], .obj [("c", .num 2)]])])])
        "a.x" = .ok .vnull)
    ∧ (∀ (fields : List (String × Value)) (k : String) (ps : List String),
        endsWithStar k = false → JsObj.get fields k = none →
        FieldMapper.walk (k :: ps) (.obj fields) = .ok [])
    ∧ (∀ (part : String) (ps : List String) (v : Value),
        endsWithStar part = true →
        (FieldMapper.wildTarget part v).isArr = false →
        FieldMapper.walk (part :: ps) v = .ok [])
    ∧ (∀ (parts : List String) (v : Value),
        (FieldMapper.walk parts v).isOk = true ↔
          FieldMapper.walkMeetsScalar parts v = false) :=
  ⟨by decide, by decide,
   FieldMapper.walk_missingKey,
   FieldMapper.walk_wildcardNonArray,
   fun parts v => FieldMapper.walk_isOk_iff parts v⟩

/-- C3 (witness): the amended theorem applied at a concrete input — the key
a is missing from the object with single key b, so the walk returns the
empty result. -/
theorem C3_resolver_amended_witness :
    FieldMapper.walk ["a"] (.obj [("b", .num 1)]) = .ok [] :=
  C3_resolver_amended.2.2.1 [("b", .num 1)] "a" [] (by decide) (by decide)

/-- C4 (counterexample): the claim that a fully empty resolution is
distinguished from resolving a literal null stored in the tree is false —
resolving key a over the tree storing an explicit null at a returns exactly
the same absent result as resolving a over the empty object. -/
theorem C4_unwrap_counterexample :
    FieldMapper.extractByJsonPath (.obj [("a", .vnull)]) "a"
        = FieldMapper.extractByJsonPath (.obj []) "a"
    ∧ FieldMapper.extractByJsonPath (.obj [("a", .vnull)]) "a" = .ok .vnull := by
  constructor <;> decide

/-- C4 (amended): the resolver returns a single fully-resolved value
unwrapped, several values as the ordered sequence collected by the walk, and
the null result for a fully empty resolution; a literal null stored at the
leaf is not distinguished — it also produces the null result. -/
theorem C4_resolver_shapes :
    (∀ (obj : Value) (path : String) (v : Value),
        obj.isFalsy = false → path ≠ "" →
        FieldMapper.walk (strSplitOnDot path) obj = .ok [v] →
        FieldMapper.extractByJsonPath obj path = .ok v)
    ∧ (∀ (obj : Value) (path : String) (a b : Value) (l : List Value),
        obj.isFalsy = false → path ≠ "" →
        FieldMapper.walk (strSplitOnDot path) obj = .ok (a :: b :: l) →
        FieldMapper.extractByJsonPath obj path = .ok (.arr (a :: b :: l)))
    ∧ (∀ (obj : Value) (path : String),
        FieldMapper.walk (strSplitOnDot path) obj = .ok [] →
        FieldMapper.extractByJsonPath obj path = .ok .vnull)
    ∧ FieldMapper.extractByJsonPath (.obj [("a", .vnull)]) "a" = .ok .vnull :=
  ⟨FieldMapper.extract_ofWalkSingle,
   FieldMapper.extract_ofWalkMulti,
   FieldMapper.extract_ofWalkEmpty,
   by decide⟩

/-- C4 (witness): the amended theorem applied at a concrete input — a
single resolved value comes back unwrapped. -/
theorem C4_resolver_shapes_witness :
    FieldMapper.extractByJsonPath (.obj [("a", .num 7)]) "a" = .ok (.num 7) :=
  C4_resolver_shapes.1 (.obj [("a", .num 7)]) "a" (.num 7)
    (by decide) (by decide) (by decide)

/-! ## Claims about the transformation engine (C5) and the combined
date-time mapping (C6) -/

/-- C5: the transformation engine is a total function from value and rule
name to a value: when the applied rule throws (bad format, parse exception)
the original value is returned unchanged together with a warn diagnostic,
and a rule name containing none of the supported rule keys passes the value
through unchanged with no error. -/
theorem C5_transform_total :
    (∀ (v : Value) (rule msg : String),
        FieldMapper.applyTransformationTry v rule = .error msg →
        FieldMapper.applyTransformation v rule
          = (v, ["Transformation failed: " ++ msg]))
    ∧ (∀ (v : Value) (rule : String),
        strIncludes rule "epochToDate" = false →
        strIncludes rule "epochToTimestamp" = false →
        strIncludes rule "toUpperCase" = false →
        strIncludes rule "toLowerCase" = false →
        strIncludes rule "parseFloat" = false →
        strIncludes rule "parseInt" = false →
        strIncludes rule "toISOString" = false →
        strIncludes rule "parseDateTime" = false →
        FieldMapper.applyTransformation v rule = (v, [])) := by
  constructor
  · intro v rule msg h
    unfold FieldMapper.applyTransformation
    rw [h]
  · intro v rule h1 h2 h3 h4 h5 h6 h7 h8
    unfold FieldMapper.applyTransformation FieldMapper.applyTransformationTry
    simp [h1, h2, h3, h4, h5, h6, h7, h8]

/-- C5 (witness): the theorem applied at concrete inputs — a toISOString
rule on an unparseable date gives back the original value with a
diagnostic, and an unknown future rule name is a no-op. -/
theorem C5_transform_total_witness :
    FieldMapper.applyTransformation (.str "garbage") "toISOString"
        = (.str "garbage", ["Transformation failed: RangeError: Invalid time value"])
    ∧ FieldMapper.applyTransformation (.str "x") "someFutureRule"
        = (.str "x", []) :=
  ⟨C5_transform_total.1 (.str "garbage") "toISOString"
      "RangeError: Invalid time value" (by decide),
   C5_transform_total.2 (.str "x") "someFutureRule" (by decide) (by decide)
      (by decide) (by decide) (by decide) (by decide) (by decide) (by decide)⟩

/-- C6: for a compound date-time mapping, the date field 20251210 combined
with the time field 143005 yields the single timestamp string
2025-12-10 14:30:05 with no diagnostic; the date value 2025/12/10, which
matches neither supported date shape, yields null plus a warn diagnostic;
and in general any truthy string-valued date field matching neither the
YYYYMMDD nor the YYYY-MM-DD shape (with a truthy time field) yields null
plus the diagnostic — the builder is a total function, never an
exception. -/
theorem C6_buildTimestamp :
    (FieldMapper.buildTimestamp
        (.obj [("TrnDate", .str "20251210"), ("TrnTime", .str "143005")])
        { pvfm_json_path := some "TrnDate|TrnTime" }
      = (.str "2025-12-10 14:30:05", []))
    ∧ (FieldMapper.buildTimestamp
        (.obj [("TrnDate", .str "2025/12/10"), ("TrnTime", .str "143005")])
        { pvfm_json_path := some "TrnDate|TrnTime" }
      = (.vnull, ["Invalid date format: 2025/12/10"]))
    ∧ (∀ (record : Value) (m : FieldMapper.FieldMapping) (s : String),
        jsIndex record (FieldMapper.dateKeyOf m) = .str s → s ≠ "" →
        (jsIndex record (FieldMapper.timeKeyOf m)).isFalsy = false →
        FieldMapper.datePartOf s = none →
        FieldMapper.buildTimestamp record m
          = (.vnull, ["Invalid date format: " ++ s])) := by
  refine ⟨by decide, by decide, ?_⟩
  intro record m s hdt hs htm hdp
  unfold FieldMapper.buildTimestamp
  rw [hdt]
  have h1 : (Value.str s).isFalsy = false := by simp [Value.isFalsy, hs]
  simp [h1, htm, jsToString, hdp]

/-- C6 (witness): the universal clause of the theorem applied at a concrete
record whose date field uses slashes. -/
theorem C6_buildTimestamp_witness :
    FieldMapper.buildTimestamp
        (.obj [("d", .str "2025/12/10"), ("t", .str "143005")])
        { pvfm_json_path := some "d|t" }
      = (.vnull, ["Invalid date format: 2025/12/10"]) :=
  C6_buildTimestamp.2.2
    (.obj [("d", .str "2025/12/10"), ("t", .str "143005")])
    { pvfm_json_path := some "d|t" } "2025/12/10"
    (by decide) (by decide) (by decide) (by decide)

/-! ## Claim about the row-root fallback of the row-table mapper (C10) -/

/-- C10 (amended): when the items or payments table has at least one
mapping rule, the row-root path resolves to null (or no row root is
declared), and the raw record is not an array, the whole record becomes the
single row, so a successful mapping returns exactly one mapped row.  (When
the record is itself an array the fallback maps its elements instead — an
empty-array record yields an empty row list, which is the corrected part of
the claim.) -/
theorem C10_rowFallback (sourceType : String)
    (fieldMappings : List FieldMapper.FieldMapping) (record : Value)
    (txMapped : JsObj Value) (tableName : String) (transactionId : Value)
    (uuidOf : Nat → String)
    (hm : (FieldMapper.getMappings fieldMappings tableName).isEmpty = false)
    (hrr : FieldMapper.rowRootOf (FieldMapper.getMappings fieldMappings tableName)
            = none ∨
          ∃ rr, FieldMapper.rowRootOf
              (FieldMapper.getMappings fieldMappings tableName) = some rr ∧
            FieldMapper.extractByJsonPath record rr = .ok .vnull)
    (ha : record.isArr = false) :
    ∀ res, FieldMapper.mapFlexibleTable sourceType fieldMappings record
        txMapped tableName transactionId uuidOf = .ok res →
      res.length = 1 := by
  intro res h
  unfold FieldMapper.mapFlexibleTable at h
  simp only [hm, Bool.false_eq_true, if_false] at h
  rcases hrr with hnone | ⟨rr, hsome, hex⟩
  · simp only [hnone, bind, Except.bind, pure, Except.pure] at h
    rw [ite_self, FieldMapper.toRowList_nonarr record ha] at h
    simp only [List.isEmpty_cons, Bool.false_eq_true, if_false, List.enum] at h
    exact FieldMapper.mapRows_singleton _ _ res h
  · simp only [hsome, hex, bind, Except.bind, pure, Except.pure,
      Value.isFalsy, if_true] at h
    rw [FieldMapper.toRowList_nonarr record ha] at h
    simp only [List.isEmpty_cons, Bool.false_eq_true, if_false, List.enum] at h
    exact FieldMapper.mapRows_singleton _ _ res h

/-- C10 (counterexample): with one items rule whose row root x resolves to
nothing, an empty-array raw record falls back to itself as the row source
and yields an empty mapped list — not the at-least-one-row list the claim
promises for every record. -/
theorem C10_rowFallback_counterexample :
    FieldMapper.mapFlexibleTable "api"
        [{ pvfm_tablename := "raw_transaction_items", pvfm_source_field := "sku",
           pvfm_json_path := some "sku", pvfm_row_root_json_path := some "x" }]
        (.arr []) [("brand_id", .str "B1")] "raw_transaction_items" (.str "t1")
        (fun n => "uuid" ++ toString n)
      = .ok [] := by
  decide

/-- C10 (witness): the amended theorem applied at a concrete non-array
record whose declared row root x resolves to nothing — the record itself is
mapped as the single row. -/
theorem C10_rowFallback_witness :
    FieldMapper.mapFlexibleTable "api"
        [{ pvfm_tablename := "raw_transaction_items", pvfm_source_field := "sku",
           pvfm_json_path := some "sku", pvfm_row_root_json_path := some "x" }]
        (.obj [("sku", .str "A")]) [("brand_id", .str "B1")]
        "raw_transaction_items" (.str "t1") (fun n => "uuid" ++ toString n)
      = .ok [[("transaction_id", .str "t1"), ("brand_id", .str "B1"),
          ("brand_name", .undefined), ("outlet_id", .undefined),
          ("outlet_name", .undefined), ("terminal", .undefined), ("gate", .undefined),
          ("transaction_time", .undefined), ("received_at", .undefined),
          ("invoice_no", .undefined), ("item_line_id", .str "uuid0"),
          ("sku", .str "A")]]
    ∧ ∀ res, FieldMapper.mapFlexibleTable "api"
        [{ pvfm_tablename := "raw_transaction_items", pvfm_source_field := "sku",
           pvfm_json_path := some "sku", pvfm_row_root_json_path := some "x" }]
        (.obj [("sku", .str "A")]) [("brand_id", .str "B1")]
        "raw_transaction_items" (.str "t1") (fun n => "uuid" ++ toString n)
      = .ok res → res.length = 1 :=
  ⟨by decide,
   C10_rowFallback "api"
     [{ pvfm_tablename := "raw_transaction_items", pvfm_source_field := "sku",
        pvfm_json_path := some "sku", pvfm_row_root_json_path := some "x" }]
     (.obj [("sku", .str "A")]) [("brand_id", .str "B1")]
     "raw_transaction_items" (.str "t1") (fun n => "uuid" ++ toString n)
     (by decide) (Or.inr ⟨"x", by decide, by decide⟩) (by decide)⟩

/-! ## Claims about the correlator/grouper (C7, C8) -/

/-- C7 (counterexample): in the multi-API grouping an item row with no
correlation key is not discarded — it lands in a group keyed by the
stringified undefined value, so it does appear in a group's items
collection (and no discard count exists anywhere). -/
theorem C7_orphanDiscard_counterexample :
    DataFetcher.groupByReceiptmultiapi [.obj [("sku", .str "A")]] [] []
      = [{ receipt_no := .undefined, transaction := none,
           items := [.obj [("sku", .str "A")]], payments := [] }] := by
  decide

/-- C7 (amended): in the SOAP three-segment grouping and in the DB flat-row
grouping a row with a falsy correlation key is silently discarded — every
row stored in any group carries a truthy key (so the orphan appears in no
group); no discard count is recorded, and the multi-API grouping does not
discard at all (see the counterexample). -/
theorem C7_orphanDiscard :
    (∀ (transactions items payments : List Value),
        ∀ g ∈ DataFetcher.groupByReceiptNoFromSoap transactions items payments,
          DataFetcher.groupNoOrphans g)
    ∧ (∀ (sourceType : String) (invMapping : FieldMapper.FieldMapping)
        (rows : List Value) (k : String) (grp : List Value),
        JsObj.get (DbTransactionMapper.dbGroupRows sourceType invMapping [] rows)
            k = some grp →
        ∀ r ∈ grp,
          (DbTransactionMapper.applyMapping sourceType r invMapping).isFalsy
            = false) := by
  constructor
  · intro transactions items payments g hg
    obtain ⟨k, hk⟩ := JsObj.mem_enumValues hg
    refine DataFetcher.soapAddPayments_noOrphans payments _ ?_ k g hk
    refine DataFetcher.soapAddItems_noOrphans items _ ?_
    refine DataFetcher.soapAddTransactions_noOrphans transactions _ ?_
    intro k2 g2 hmem
    simp at hmem
  · intro sourceType invMapping rows k grp hget r hr
    refine DbTransactionMapper.dbGroupRows_noOrphans sourceType invMapping rows
      [] ?_ k grp (JsObj.get_mem hget) r hr
    intro k2 grp2 hmem
    simp at hmem

/-- C7 (witness): the amended theorem applied to a concrete SOAP grouping —
the single resulting group contains no orphan row. -/
theorem C7_orphanDiscard_witness :
    DataFetcher.groupNoOrphans
      { receipt_no := .str "2",
        transaction := some (.obj [("RECEIPT_NO", .str "2")]),
        items := [.obj [("RECEIPT_NO", .str "2"), ("sku", .str "X")]],
        payments := [] } :=
  C7_orphanDiscard.1 [.obj [("RECEIPT_NO", .str "2")]]
    [.obj [("RECEIPT_NO", .str "2"), ("sku", .str "X")],
     .obj [("sku", .str "A")]] []
    { receipt_no := .str "2",
      transaction := some (.obj [("RECEIPT_NO", .str "2")]),
      items := [.obj [("RECEIPT_NO", .str "2"), ("sku", .str "X")]],
      payments := [] }
    (by decide)

/-- C8 (counterexample): the grouped output does not preserve first-seen
key order — receipt numbers are canonical integer strings, which a plain JS
object enumerates in ascending numeric order, so receipts seen in the order
2, 1 come out ordered 1, 2. -/
theorem C8_firstSeenOrder_counterexample :
    (DataFetcher.groupByReceiptNoFromSoap
        [.obj [("RECEIPT_NO", .str "2")], .obj [("RECEIPT_NO", .str "1")]]
        [] []).map DataFetcher.RcptGroup.receipt_no
      = [.str "1", .str "2"]
    ∧ [Value.str "1", Value.str "2"] ≠ [Value.str "2", Value.str "1"] := by
  constructor <;> decide

/-- C8 (amended): both groupers accumulate their plain-object keys in
first-seen order, and the enumerated output follows first-seen order
exactly when no correlation key is a canonical integer string (an
array-index-like key is enumerated numerically first instead). -/
theorem C8_firstSeenOrder :
    (∀ (transactions items payments : List Value),
        (DataFetcher.soapGroupMap transactions items payments).map Prod.fst
          = firstSeen [] (DataFetcher.soapKeyStream transactions items payments))
    ∧ (∀ (transactions items payments : List Value),
        (∀ k ∈ (DataFetcher.soapGroupMap transactions items payments).map
            Prod.fst, isArrayIndexKey k = false) →
        DataFetcher.groupByReceiptNoFromSoap transactions items payments
          = (DataFetcher.soapGroupMap transactions items payments).map Prod.snd)
    ∧ (∀ (sourceType : String) (invMapping : FieldMapper.FieldMapping)
        (rows : List Value),
        (DbTransactionMapper.dbGroupRows sourceType invMapping [] rows).map
            Prod.fst
          = firstSeen []
              (DbTransactionMapper.dbKeyStream sourceType invMapping rows))
    ∧ (∀ (sourceType : String) (invMapping : FieldMapper.FieldMapping)
        (rows : List Value),
        (∀ k ∈ (DbTransactionMapper.dbGroupRows sourceType invMapping []
            rows).map Prod.fst, isArrayIndexKey k = false) →
        JsObj.enumKeys (DbTransactionMapper.dbGroupRows sourceType invMapping
            [] rows)
          = firstSeen []
              (DbTransactionMapper.dbKeyStream sourceType invMapping rows)) := by
  refine ⟨DataFetcher.soapGroupMap_keys, ?_, ?_, ?_⟩
  · intro transactions items payments h
    exact JsObj.enumValues_of_noIndex h
  · intro sourceType invMapping rows
    simpa using DbTransactionMapper.dbGroupRows_keys sourceType invMapping rows []
  · intro sourceType invMapping rows h
    rw [JsObj.enumKeys_of_noIndex h]
    simpa using DbTransactionMapper.dbGroupRows_keys sourceType invMapping rows []

/-- C8 (witness): the amended theorem applied to receipts A2, A1 — keys
that are not integer-like — where the output does come back in first-seen
order. -/
theorem C8_firstSeenOrder_witness :
    DataFetcher.groupByReceiptNoFromSoap
        [.obj [("RECEIPT_NO", .str "A2")], .obj [("RECEIPT_NO", .str "A1")]]
        [] []
      = (DataFetcher.soapGroupMap
          [.obj [("RECEIPT_NO", .str "A2")], .obj [("RECEIPT_NO", .str "A1")]]
          [] []).map Prod.snd :=
  C8_firstSeenOrder.2.1
    [.obj [("RECEIPT_NO", .str "A2")], .obj [("RECEIPT_NO", .str "A1")]] [] []
    (by decide)

/-! ## Claim about the copy-down identity invariant (C9) -/

/-- C9 (counterexample): an items mapping rule whose source field is
brand_id overwrites the identity value copied down from the parent header,
so the produced item carries a brand_id different from its parent's. -/
theorem C9_copyDown_counterexample :
    FieldMapper.mapFlexibleTable "db"
        [{ pvfm_tablename := "raw_transaction_items",
           pvfm_source_field := "brand_id" }]
        (.obj [("brand_id", .str "OTHER")]) [("brand_id", .str "B1")]
        "raw_transaction_items" (.str "t1") (fun n => "uuid" ++ toString n)
      = .ok [[("transaction_id", .str "t1"), ("brand_id", .str "OTHER"),
          ("brand_name", .undefined), ("outlet_id", .undefined),
          ("outlet_name", .undefined), ("terminal", .undefined), ("gate", .undefined),
          ("transaction_time", .undefined), ("received_at", .undefined),
          ("invoice_no", .undefined), ("item_line_id", .str "uuid0")]]
    ∧ JsObj.get [("brand_id", Value.str "B1")] "brand_id" = some (.str "B1")
    ∧ Value.str "OTHER" ≠ Value.str "B1" := by
  refine ⟨by decide, by decide, by decide⟩

/-- C9 (amended): every item and payment row carries the same identity
fields (brand_id, outlet_id, terminal, transaction_time, invoice_no) as its
parent header, established by copying the header's values at creation,
provided no mapping rule for the row table reassigns one of those identity
fields — both in the flexible row-table mapper and in the DB mapper's item
and payment builders. -/
theorem C9_copyDown :
    (∀ (sourceType : String) (mappings : List FieldMapper.FieldMapping)
        (txMapped : JsObj Value) (tableName : String) (transactionId : Value)
        (rowId : String) (row : Value) (k : String),
        k ∈ FieldMapper.identityFields →
        (∀ m ∈ mappings, m.pvfm_source_field ≠ k) →
        ∀ r, FieldMapper.mapRowFlexible sourceType mappings txMapped tableName
            transactionId rowId row = .ok r →
          JsObj.get r k = some ((JsObj.get txMapped k).getD .undefined))
    ∧ (∀ (sourceType : String) (fieldMappings : List FieldMapper.FieldMapping)
        (uid : String) (row : Value) (tx : JsObj Value) (k : String),
        k ∈ FieldMapper.identityFields →
        (∀ m ∈ FieldMapper.getMappings fieldMappings "raw_transaction_items",
          m.pvfm_source_field ≠ k) →
        JsObj.get (DbTransactionMapper.mapItem sourceType fieldMappings uid row
            tx) k
          = some ((JsObj.get tx k).getD .undefined))
    ∧ (∀ (sourceType : String) (fieldMappings : List FieldMapper.FieldMapping)
        (uid : String) (row : Value) (tx : JsObj Value) (k : String),
        k ∈ FieldMapper.identityFields →
        (∀ m ∈ FieldMapper.getMappings fieldMappings "raw_payment",
          m.pvfm_source_field ≠ k) →
        ∀ p ∈ DbTransactionMapper.mapPayment sourceType fieldMappings uid row
            tx,
          JsObj.get p k = some ((JsObj.get tx k).getD .undefined)) :=
  ⟨FieldMapper.mapRowFlexible_identity,
   DbTransactionMapper.mapItem_identity,
   DbTransactionMapper.mapPayment_identity⟩

/-- C9 (witness): the amended theorem applied at a concrete item row whose
mapping rule targets sku only — the produced item keeps the parent's
brand_id. -/
theorem C9_copyDown_witness :
    JsObj.get
        (DbTransactionMapper.mapItem "db"
          [{ pvfm_tablename := "raw_transaction_items",
             pvfm_source_field := "sku" }]
          "uuid7" (.obj [("sku", .str "A")])
          [("brand_id", .str "B1"), ("invoice_no", .str "INV1")])
        "brand_id"
      = some (.str "B1") :=
  C9_copyDown.2.1 "db"
    [{ pvfm_tablename := "raw_transaction_items",
       pvfm_source_field := "sku" }]
    "uuid7" (.obj [("sku", .str "A")])
    [("brand_id", .str "B1"), ("invoice_no", .str "INV1")] "brand_id"
    (by decide) (by decide)

/-! ## Claims about the batch inserter (C1, C2) -/

/-- C1: in a batch of fresh transactions with pairwise-distinct natural
keys in which exactly one record's insertion fails, the failure is caught
without aborting the batch: inserted equals the number of non-failing
records (batch size minus one), errored is one, skipped is zero, exactly
one exception-log record is written carrying the failing record's
identifiers, and every non-failing record — including those after the
failing one — is in the committed headers. -/
theorem C1_partialFailure (fails : DataInserter.Tx → Option String)
    (txs : List DataInserter.Tx) (s0 : DataInserter.DbState)
    (hdist : txs.Pairwise (fun a b => DataInserter.keyMatches a b = false))
    (hfresh : ∀ t ∈ txs, DataInserter.checkTransactionExists s0 t = false)
    (bad : DataInserter.Tx)
    (hbad : txs.filter (fun t => (fails t).isSome) = [bad]) :
    DataInserter.insertTransactions fails txs s0 =
      ({ successCount := (txs.filter (fun t => (fails t).isNone)).length,
         errorCount := 1, skippedCount := 0 },
       { headers := s0.headers ++ txs.filter (fun t => (fails t).isNone),
         exceptions := s0.exceptions ++
           [DataInserter.mkException bad ((fails bad).getD "")] })
    ∧ (txs.filter (fun t => (fails t).isNone)).length + 1 = txs.length
    ∧ (∀ t ∈ txs, (fails t).isNone = true →
        t ∈ (DataInserter.insertTransactions fails txs s0).2.headers) := by
  have hchar := DataInserter.insertTransactions_fresh fails txs s0 hdist hfresh
  refine ⟨?_, ?_, ?_⟩
  · rw [hchar, hbad]
    simp
  · have := DataInserter.filter_isNone_add_isSome fails txs
    rw [hbad] at this
    simpa using this
  · intro t ht hnone
    rw [hchar]
    simp only
    refine List.mem_append.mpr (Or.inr ?_)
    exact List.mem_filter.mpr ⟨ht, by simp [hnone]⟩

/-- C1 (witness): the theorem applied to a concrete batch of three fresh
transactions in which the second one fails. -/
theorem C1_partialFailure_witness :
    DataInserter.insertTransactions
        (fun t => if t.invoice_no = "I2" then some "constraint violation"
          else none)
        [{ transaction_id := "t1", invoice_no := "I1", brand_name := "B",
           outlet_name := "O" },
         { transaction_id := "t2", invoice_no := "I2", brand_name := "B",
           outlet_name := "O" },
         { transaction_id := "t3", invoice_no := "I3", brand_name := "B",
           outlet_name := "O" }]
        {} =
      ({ successCount := 2, errorCount := 1, skippedCount := 0 },
       { headers :=
           [{ transaction_id := "t1", invoice_no := "I1", brand_name := "B",
              outlet_name := "O" },
            { transaction_id := "t3", invoice_no := "I3", brand_name := "B",
              outlet_name := "O" }],
         exceptions :=
           [DataInserter.mkException
             { transaction_id := "t2", invoice_no := "I2", brand_name := "B",
               outlet_name := "O" } "constraint violation"] }) :=
  (C1_partialFailure
    (fun t => if t.invoice_no = "I2" then some "constraint violation" else none)
    [{ transaction_id := "t1", invoice_no := "I1", brand_name := "B",
       outlet_name := "O" },
     { transaction_id := "t2", invoice_no := "I2", brand_name := "B",
       outlet_name := "O" },
     { transaction_id := "t3", invoice_no := "I3", brand_name := "B",
       outlet_name := "O" }]
    {} (by decide) (by decide)
    { transaction_id := "t2", invoice_no := "I2", brand_name := "B",
      outlet_name := "O" }
    (by decide)).1

/-- C2 (counterexample): with a batch holding the same transaction twice,
the first call inserts one and skips one, and the second call skips two —
so the second call's skipped-count (2) differs from the first call's
inserted-count (1), refuting the claim as stated for every input list. -/
theorem C2_idempotent_counterexample :
    (DataInserter.insertTransactions (fun _ => none)
        [{ transaction_id := "t1", invoice_no := "I1", brand_name := "B",
           outlet_name := "O" },
         { transaction_id := "t1", invoice_no := "I1", brand_name := "B",
           outlet_name := "O" }]
        {}).1.successCount = 1
    ∧ (DataInserter.insertTransactions (fun _ => none)
        [{ transaction_id := "t1", invoice_no := "I1", brand_name := "B",
           outlet_name := "O" },
         { transaction_id := "t1", invoice_no := "I1", brand_name := "B",
           outlet_name := "O" }]
        (DataInserter.insertTransactions (fun _ => none)
          [{ transaction_id := "t1", invoice_no := "I1", brand_name := "B",
             outlet_name := "O" },
           { transaction_id := "t1", invoice_no := "I1", brand_name := "B",
             outlet_name := "O" }]
          {}).2).1.skippedCount = 2
    ∧ (2 : Nat) ≠ 1 := by
  refine ⟨by decide, by decide, by decide⟩

/-- C2 (amended): for a batch of fresh transactions whose natural keys are
pairwise distinct and whose inserts succeed, the first call inserts the
whole batch; the second call with the same input inserts nothing and skips
exactly the first call's inserted-count; the state is unchanged by the
second call and holds exactly one header row per natural key.  (With
duplicate keys inside the batch the second call's skipped-count is the
batch length, which exceeds the first call's inserted-count — see the
counterexample.) -/
theorem C2_idempotent (txs : List DataInserter.Tx) (s0 : DataInserter.DbState)
    (hdist : txs.Pairwise (fun a b => DataInserter.keyMatches a b = false))
    (hfresh : ∀ t ∈ txs, DataInserter.checkTransactionExists s0 t = false) :
    DataInserter.insertTransactions (fun _ => none) txs s0 =
      ({ successCount := txs.length, errorCount := 0, skippedCount := 0 },
       { headers := s0.headers ++ txs, exceptions := s0.exceptions })
    ∧ DataInserter.insertTransactions (fun _ => none) txs
        { headers := s0.headers ++ txs, exceptions := s0.exceptions } =
      ({ successCount := 0, errorCount := 0, skippedCount := txs.length },
       { headers := s0.headers ++ txs, exceptions := s0.exceptions })
    ∧ (∀ t ∈ txs,
        ((s0.headers ++ txs).filter
          (fun h => DataInserter.keyMatches h t)).length = 1) := by
  have hchar := DataInserter.insertTransactions_fresh (fun _ => none) txs s0
    hdist hfresh
  have hfilters : txs.filter
      (fun t => (Option.isNone (α := String) none)) = txs := by
    simp
  refine ⟨?_, ?_, ?_⟩
  · rw [hchar]
    simp
  · refine DataInserter.insertTransactions_allExist (fun _ => none) txs _ ?_
    intro t ht
    simp only [DataInserter.checkTransactionExists, List.any_append,
      Bool.or_eq_true, List.any_eq_true]
    exact Or.inr ⟨t, ht, DataInserter.keyMatches_self t⟩
  · intro t ht
    rw [List.filter_append]
    have h1 := hfresh t ht
    simp only [DataInserter.checkTransactionExists, List.any_eq_false] at h1
    have h0 : s0.headers.filter (fun h => DataInserter.keyMatches h t) = [] := by
      rw [List.filter_eq_nil_iff]
      intro h hh
      simpa using h1 h hh
    rw [h0, DataInserter.filter_key_singleton txs hdist t ht]
    simp

/-- C2 (witness): the amended theorem applied to a concrete two-element
batch with distinct invoice numbers. -/
theorem C2_idempotent_witness :
    DataInserter.insertTransactions (fun _ => none)
        [{ transaction_id := "t1", invoice_no := "I1", brand_name := "B",
           outlet_name := "O" },
         { transaction_id := "t2", invoice_no := "I2", brand_name := "B",
           outlet_name := "O" }]
        { headers :=
            [{ transaction_id := "t1", invoice_no := "I1", brand_name := "B",
               outlet_name := "O" },
             { transaction_id := "t2", invoice_no := "I2", brand_name := "B",
               outlet_name := "O" }],
          exceptions := [] } =
      ({ successCount := 0, errorCount := 0, skippedCount := 2 },
       { headers :=
           [{ transaction_id := "t1", invoice_no := "I1", brand_name := "B",
              outlet_name := "O" },
            { transaction_id := "t2", invoice_no := "I2", brand_name := "B",
              outlet_name := "O" }],
         exceptions := [] }) :=
  (C2_idempotent
    [{ transaction_id := "t1", invoice_no := "I1", brand_name := "B",
       outlet_name := "O" },
     { transaction_id := "t2", invoice_no := "I2", brand_name := "B",
       outlet_name := "O" }]
    {} (by decide) (by decide)).2.1
